import Mathlib

/-!
Verification of the SparkyFitness Garmin microservice
(`SparkyFitnessGarmin/main.py`) against its natural-language specification.

The development shallowly embeds the core of the service:
* the recursive payload cleaner `clean_garmin_data` (including its embedded
  JSON-string decoding, modelled with an executable JSON parser),
* the unit converters `convert_activities_units` / `convert_user_summary_units`,
* the stress-to-mood derivation `map_garmin_stress_to_mood`,
* the sleep-record builder inside `get_health_and_wellness`,
* the MFA challenge cache (`MFA_STATE_STORE`, `_cleanup_mfa_cache`,
  `garmin_login`, `garmin_resume_login`),
* the per-date aggregation loop of `get_health_and_wellness` over a
  representative subset of the metric categories (the daily-summary family,
  hydration, sleep, stress, spo2, body_battery with its fallback endpoint,
  and the range-invariant lactate-threshold / race-prediction fetches); the
  remaining per-date category blocks in the source share the identical
  try/except-per-block structure,
* the per-activity enrichment loop of `get_activities_and_workouts`.

Python `None` is modelled by `JVal.null` (inside payloads) or `Option.none`
(for typed fields); machine floats from Python arithmetic are modelled by `ℚ`;
a thrown upstream exception is modelled by `Except.error ()`.
-/

namespace SparkyGarmin

/-- JSON-like values: the payload domain of the Python service (dicts, lists,
strings, numbers, booleans, `None`/`null`). Objects are association lists in
insertion order, mirroring Python `dict` iteration order. -/
inductive JVal where
  | null : JVal
  | bool : Bool → JVal
  | num : ℚ → JVal
  | str : String → JVal
  | arr : List JVal → JVal
  | obj : List (String × JVal) → JVal

/-- Python truthiness (`if v:`) on payload values:
`None`, `False`, `0`, `""`, `[]`, `{}` are falsy. -/
def jTruthy : JVal → Bool
  | .null => false
  | .bool b => b
  | .num q => q != 0
  | .str s => s != ""
  | .arr xs => !xs.isEmpty
  | .obj kvs => !kvs.isEmpty

mutual

/-- Size measure used to define the cleaner by fuel: it under-approximates the
number of characters of any JSON text that parses to the value, which makes the
embedded-JSON decoding step of the cleaner strictly decreasing. -/
def jsize : JVal → ℕ
  | .null => 1
  | .bool _ => 1
  | .num _ => 1
  | .str s => s.length + 2
  | .arr xs => jsizeArr xs + 1
  | .obj kvs => jsizeObj kvs + 1

/-- Sum of `jsize` over array elements. -/
def jsizeArr : List JVal → ℕ
  | [] => 0
  | v :: vs => jsize v + jsizeArr vs

/-- Sum of member sizes over object members (a key of length `n` costs
`n + 2` characters in any JSON text). -/
def jsizeObj : List (String × JVal) → ℕ
  | [] => 0
  | kv :: kvs => kv.1.length + 2 + jsize kv.2 + jsizeObj kvs

end

theorem jsize_pos (v : JVal) : 1 ≤ jsize v := by
  cases v <;> simp [jsize]

/-!  ## A JSON parser (model of Python `json.loads`)

`clean_garmin_data` feeds every string through
`json.loads(data.replace('""', '"'))`; the parser below models `json.loads`
closely enough for the cleaner's semantics: standard JSON values, strict
number grammar, string escapes, JSON whitespace, full-input consumption,
and last-duplicate-wins object keys. -/

/-- JSON whitespace (the four characters accepted by Python's `json.loads`). -/
def isJsonWs (c : Char) : Bool :=
  c = ' ' || c = '\t' || c = '\n' || c = '\r'

/-- Drop leading JSON whitespace. -/
def skipWs : List Char → List Char
  | [] => []
  | c :: cs => if isJsonWs c then skipWs cs else c :: cs

/-- Python `dict` insertion semantics for JSON objects with duplicate keys:
the later value replaces the earlier one (first position kept). -/
def objInsert (k : String) (v : JVal) : List (String × JVal) → List (String × JVal)
  | [] => [(k, v)]
  | kv :: rest => if kv.1 = k then (k, v) :: rest else kv :: objInsert k v rest

/-- Hex digit value, for `\uXXXX` escapes. -/
def hexVal (c : Char) : Option ℕ :=
  if '0' ≤ c ∧ c ≤ '9' then some (c.toNat - '0'.toNat)
  else if 'a' ≤ c ∧ c ≤ 'f' then some (c.toNat - 'a'.toNat + 10)
  else if 'A' ≤ c ∧ c ≤ 'F' then some (c.toNat - 'A'.toNat + 10)
  else none

/-- Decoding table for single-character JSON string escapes. -/
def escChar : Char → Option Char
  | '"' => some '"'
  | '\\' => some '\\'
  | '/' => some '/'
  | 'b' => some (Char.ofNat 8)
  | 'f' => some (Char.ofNat 12)
  | 'n' => some '\n'
  | 'r' => some '\r'
  | 't' => some '\t'
  | _ => none

/-- Body of a JSON string literal (after the opening quote): returns the decoded
characters and the input remaining after the closing quote. -/
def parseStrBody : List Char → Option (List Char × List Char)
  | [] => none
  | c :: rest =>
    if c = '"' then some ([], rest)
    else if c = '\\' then
      match rest with
      | [] => none
      | e :: rest₁ =>
        if e = 'u' then
          match rest₁ with
          | a :: b :: c :: d :: rest₂ =>
            match hexVal a, hexVal b, hexVal c, hexVal d, parseStrBody rest₂ with
            | some ha, some hb, some hc, some hd, some (out, rest') =>
              some (Char.ofNat (((ha * 16 + hb) * 16 + hc) * 16 + hd) :: out, rest')
            | _, _, _, _, _ => none
          | _ => none
        else
          match escChar e, parseStrBody rest₁ with
          | some c, some (out, rest') => some (c :: out, rest')
          | _, _ => none
    else if c.toNat < 32 then none
    else
      match parseStrBody rest with
      | some (out, rest') => some (c :: out, rest')
      | none => none

/-- Take a maximal run of decimal digits, returning their value, their count,
and the rest of the input. -/
def takeDigits : List Char → ℕ → ℕ → (ℕ × ℕ × List Char)
  | c :: cs, acc, n =>
    if '0' ≤ c ∧ c ≤ '9' then takeDigits cs (acc * 10 + (c.toNat - '0'.toNat)) (n + 1)
    else (acc, n, c :: cs)
  | [], acc, n => (acc, n, [])

/-- Leading minus sign of a JSON number. -/
def numSign : List Char → (Bool × List Char)
  | '-' :: rest => (true, rest)
  | cs => (false, cs)

/-- Optional fraction part `.[0-9]+` of a JSON number (value, digit count, rest). -/
def numFrac : List Char → Option (ℕ × ℕ × List Char)
  | '.' :: rest =>
    match takeDigits rest 0 0 with
    | (f, n, r) => if n = 0 then none else some (f, n, r)
  | cs => some (0, 0, cs)

/-- Optional exponent part `[eE][-+]?[0-9]+` of a JSON number. -/
def numExp : List Char → Option (Option (Bool × ℕ) × List Char)
  | [] => some (none, [])
  | e :: rest =>
    if e = 'e' ∨ e = 'E' then
      match (match rest with
        | '-' :: r => (true, r)
        | '+' :: r => (false, r)
        | _ => (false, rest)) with
      | (esign, rest') =>
        match takeDigits rest' 0 0 with
        | (ev, en, r) => if en = 0 then none else some (some (esign, ev), r)
    else some (none, e :: rest)

/-- Strict JSON number grammar `-?(0|[1-9][0-9]*)(\.[0-9]+)?([eE][-+]?[0-9]+)?`,
evaluated exactly in `ℚ`. -/
def parseNumber (cs : List Char) : Option (ℚ × List Char) :=
  match numSign cs with
  | (neg, cs₁) =>
    match takeDigits cs₁ 0 0 with
    | (ipart, icount, cs₂) =>
      if icount = 0 then none
      else if 2 ≤ icount ∧ (cs₁.headD ' ') = '0' then none
      else
        match numFrac cs₂ with
        | none => none
        | some (fnum, fcount, cs₃) =>
          match numExp cs₃ with
          | none => none
          | some (epart, cs₄) =>
            let base : ℚ := (ipart : ℚ) + (fnum : ℚ) / (10 : ℚ) ^ fcount
            let scaled : ℚ :=
              match epart with
              | none => base
              | some (esign, ev) =>
                if esign then base / (10 : ℚ) ^ ev else base * (10 : ℚ) ^ ev
            some ((if neg then -scaled else scaled), cs₄)

mutual

/-- Parse one JSON value at the head of the input (no leading whitespace). -/
def parseValue : ℕ → List Char → Option (JVal × List Char)
  | 0, _ => none
  | _ + 1, [] => none
  | fuel + 1, c :: cs =>
    match c with
    | 'n' =>
      match cs with
      | 'u' :: 'l' :: 'l' :: rest => some (.null, rest)
      | _ => none
    | 't' =>
      match cs with
      | 'r' :: 'u' :: 'e' :: rest => some (.bool true, rest)
      | _ => none
    | 'f' =>
      match cs with
      | 'a' :: 'l' :: 's' :: 'e' :: rest => some (.bool false, rest)
      | _ => none
    | '"' =>
      match parseStrBody cs with
      | some (out, rest) => some (.str (String.mk out), rest)
      | none => none
    | '[' =>
      match skipWs cs with
      | ']' :: rest => some (.arr [], rest)
      | cs₁ =>
        match parseItems fuel cs₁ with
        | some (items, rest) => some (.arr items, rest)
        | none => none
    | '{' =>
      match skipWs cs with
      | '}' :: rest => some (.obj [], rest)
      | cs₁ =>
        match parseMembers fuel cs₁ with
        | some (kvs, rest) => some (.obj kvs, rest)
        | none => none
    | _ =>
      match parseNumber (c :: cs) with
      | some (q, rest) => some (.num q, rest)
      | none => none

/-- Parse a non-empty comma-separated list of array items, consuming the
closing `]`. -/
def parseItems : ℕ → List Char → Option (List JVal × List Char)
  | 0, _ => none
  | fuel + 1, cs =>
    match parseValue fuel cs with
    | none => none
    | some (v, rest) =>
      match skipWs rest with
      | ']' :: rest₂ => some ([v], rest₂)
      | ',' :: rest₂ =>
        match parseItems fuel (skipWs rest₂) with
        | some (items, rest₃) => some (v :: items, rest₃)
        | none => none
      | _ => none

/-- Parse a non-empty comma-separated list of object members, consuming the
closing `}`; duplicate keys follow Python `dict` (last value wins). -/
def parseMembers : ℕ → List Char → Option (List (String × JVal) × List Char)
  | 0, _ => none
  | fuel + 1, cs =>
    match cs with
    | '"' :: cs₁ =>
      match parseStrBody cs₁ with
      | none => none
      | some (kout, rest) =>
        match skipWs rest with
        | ':' :: rest₂ =>
          match parseValue fuel (skipWs rest₂) with
          | none => none
          | some (v, rest₃) =>
            match skipWs rest₃ with
            | '}' :: rest₅ => some ([(String.mk kout, v)], rest₅)
            | ',' :: rest₅ =>
              match parseMembers fuel (skipWs rest₅) with
              | some (kvs, rest₆) => some (objInsert (String.mk kout) v kvs, rest₆)
              | none => none
            | _ => none
        | _ => none
    | _ => none

end

/-- Model of Python `json.loads`: parse a complete JSON document (leading and
trailing whitespace allowed, full input consumed), or fail. -/
def parseJson (s : String) : Option JVal :=
  match parseValue (s.data.length + 1) (skipWs s.data) with
  | some (v, rest) => if (skipWs rest).isEmpty then some v else none
  | none => none

/-- Model of Python `data.replace('""', '"')`: left-to-right, non-overlapping
replacement of doubled quotes by single quotes. -/
def replaceDD : List Char → List Char
  | [] => []
  | [c] => [c]
  | c :: d :: rest =>
    if c = '"' ∧ d = '"' then '"' :: replaceDD rest
    else c :: replaceDD (d :: rest)

/-- String version of `replaceDD`. -/
def replaceDDStr (s : String) : String := String.mk (replaceDD s.data)

theorem skipWs_length (cs : List Char) : (skipWs cs).length ≤ cs.length := by
  induction cs with
  | nil => simp [skipWs]
  | cons c cs ih =>
    simp only [skipWs]
    split
    · exact Nat.le_succ_of_le ih
    · simp

theorem replaceDD_length (cs : List Char) : (replaceDD cs).length ≤ cs.length := by
  induction cs using replaceDD.induct with
  | case1 => simp [replaceDD]
  | case2 c => simp [replaceDD]
  | case3 c d rest h ih =>
    obtain ⟨h1, h2⟩ := h
    subst h1; subst h2
    simp only [replaceDD, and_self, if_true, List.length_cons]
    omega
  | case4 c d rest h ih =>
    simp only [replaceDD, if_neg h, List.length_cons]
    simp only [List.length_cons] at ih
    omega

theorem parseStrBody_length (cs : List Char) : ∀ out rest : List Char,
    parseStrBody cs = some (out, rest) →
    out.length + 1 + rest.length ≤ cs.length := by
  induction cs using parseStrBody.induct with
  | case1 => intro out rest h; simp [parseStrBody] at h
  | case2 rest₁ =>
    intro out rest h
    rw [parseStrBody.eq_def] at h
    simp at h
    obtain ⟨h1, h2⟩ := h
    subst h1; subst h2; simp; omega
  | case3 _ =>
    intro out rest h
    rw [parseStrBody.eq_def] at h
    simp at h
  | case4 a b c d rest₂ ha hb hc hd out' rest' hrec hhd hhc hhb hha _ ih =>
    intro out rest h
    rw [parseStrBody.eq_def] at h
    simp [hha, hhb, hhc, hhd, hrec] at h
    obtain ⟨h1, h2⟩ := h
    subst h1; subst h2
    have := ih _ _ hrec
    simp only [List.length_cons]
    omega
  | case5 a b c d rest₂ hfail _ ih =>
    intro out rest h
    rw [parseStrBody.eq_def] at h
    simp at h
  | case6 rest₁ hshape _ =>
    intro out rest h
    rw [parseStrBody.eq_def] at h
    simp at h
  | case7 e rest₁ hne c out' rest' hrec hesc _ ih =>
    intro out rest h
    rw [parseStrBody.eq_def] at h
    simp [hne, hesc, hrec] at h
    obtain ⟨h1, h2⟩ := h
    subst h1; subst h2
    have := ih _ _ hrec
    simp only [List.length_cons]
    omega
  | case8 e rest₁ hne hfail _ ih =>
    intro out rest h
    rw [parseStrBody.eq_def] at h
    simp [hne] at h
  | case9 e rest₁ hq hb hctl =>
    intro out rest h
    rw [parseStrBody.eq_def] at h
    simp [hq, hb, hctl] at h
  | case10 e rest₁ hq hb hctl out' rest' hrec ih =>
    intro out rest h
    rw [parseStrBody.eq_def] at h
    simp [hq, hb, hctl, hrec] at h
    obtain ⟨h1, h2⟩ := h
    subst h1; subst h2
    have := ih _ _ hrec
    simp only [List.length_cons]
    omega
  | case11 e rest₁ hq hb hctl hrec ih =>
    intro out rest h
    rw [parseStrBody.eq_def] at h
    simp [hq, hb, hctl, hrec] at h

theorem takeDigits_length (cs : List Char) : ∀ acc n : ℕ,
    (takeDigits cs acc n).2.2.length + ((takeDigits cs acc n).2.1 - n) = cs.length ∧
    n ≤ (takeDigits cs acc n).2.1 := by
  induction cs with
  | nil => intro acc n; simp [takeDigits]
  | cons c cs ih =>
    intro acc n
    simp only [takeDigits]
    split
    · have h := ih (acc * 10 + (c.toNat - '0'.toNat)) (n + 1)
      simp only [List.length_cons]
      omega
    · simp

theorem numSign_length (cs : List Char) : (numSign cs).2.length ≤ cs.length := by
  rw [numSign.eq_def]
  split <;> simp

theorem numFrac_length (cs : List Char) (f n : ℕ) (r : List Char)
    (h : numFrac cs = some (f, n, r)) : r.length ≤ cs.length := by
  rw [numFrac.eq_def] at h
  split at h
  · rename_i rest
    rcases htd : takeDigits rest 0 0 with ⟨f', n', r'⟩
    have hl := takeDigits_length rest 0 0
    rw [htd] at h hl
    simp only at h hl
    split at h
    · exact absurd h (by simp)
    · simp only [Option.some.injEq, Prod.mk.injEq] at h
      obtain ⟨-, -, h3⟩ := h
      subst h3
      simp only [List.length_cons]
      omega
  · simp only [Option.some.injEq, Prod.mk.injEq] at h
    obtain ⟨-, -, h3⟩ := h
    subst h3
    exact le_refl _

theorem numExp_length (cs : List Char) (ep : Option (Bool × ℕ)) (r : List Char)
    (h : numExp cs = some (ep, r)) : r.length ≤ cs.length := by
  rw [numExp.eq_def] at h
  split at h
  · simp only [Option.some.injEq, Prod.mk.injEq] at h
    obtain ⟨-, h2⟩ := h
    subst h2
    exact le_refl _
  · rename_i e rest
    split at h
    · rcases hsg : (match rest with
        | '-' :: r => (true, r)
        | '+' :: r => (false, r)
        | _ => (false, rest)) with ⟨esign, rest'⟩
      have hr' : rest'.length ≤ rest.length := by
        rw [Prod.mk.injEq] at hsg
        split at hsg <;> (obtain ⟨-, h2⟩ := hsg; subst h2; simp)
      rw [hsg] at h
      simp only at h
      rcases htd : takeDigits rest' 0 0 with ⟨ev, en, r'⟩
      have hl := takeDigits_length rest' 0 0
      rw [htd] at h hl
      simp only at h hl
      split at h
      · exact absurd h (by simp)
      · simp only [Option.some.injEq, Prod.mk.injEq] at h
        obtain ⟨-, h2⟩ := h
        subst h2
        simp only [List.length_cons]
        omega
    · simp only [Option.some.injEq, Prod.mk.injEq] at h
      obtain ⟨-, h2⟩ := h
      subst h2
      exact le_refl _

theorem parseNumber_length (cs : List Char) (q : ℚ) (rest : List Char)
    (h : parseNumber cs = some (q, rest)) : rest.length < cs.length := by
  rw [parseNumber.eq_def] at h
  rcases hsg : numSign cs with ⟨neg, cs₁⟩
  have hcs₁ : cs₁.length ≤ cs.length := by
    have := numSign_length cs
    rw [hsg] at this
    exact this
  rw [hsg] at h
  simp only at h
  rcases htd : takeDigits cs₁ 0 0 with ⟨ipart, icount, cs₂⟩
  have hl := takeDigits_length cs₁ 0 0
  rw [htd] at h hl
  simp only at h hl
  split at h
  · exact absurd h (by simp)
  · split at h
    · exact absurd h (by simp)
    · rename_i hic _
      have hcs₂ : cs₂.length < cs₁.length := by omega
      rcases hfr : numFrac cs₂ with - | ⟨fnum, fcount, cs₃⟩
      · rw [hfr] at h; exact absurd h (by simp)
      · have hcs₃ := numFrac_length cs₂ fnum fcount cs₃ hfr
        rw [hfr] at h
        simp only at h
        rcases hex : numExp cs₃ with - | ⟨epart, cs₄⟩
        · rw [hex] at h; exact absurd h (by simp)
        · have hcs₄ := numExp_length cs₃ epart cs₄ hex
          rw [hex] at h
          simp only [Option.some.injEq, Prod.mk.injEq] at h
          obtain ⟨-, h2⟩ := h
          subst h2
          omega

theorem strLength_mk (out : List Char) : (String.mk out).length = out.length := rfl

theorem objInsert_jsizeObj_le (k : String) (v : JVal) (kvs : List (String × JVal)) :
    jsizeObj (objInsert k v kvs) ≤ k.length + 2 + jsize v + jsizeObj kvs := by
  induction kvs with
  | nil => simp [objInsert, jsizeObj]
  | cons kv rest ih =>
    simp only [objInsert]
    split
    · simp only [jsizeObj]
      omega
    · simp only [jsizeObj]
      omega

theorem parse_length (fuel : ℕ) :
    (∀ cs v rest, parseValue fuel cs = some (v, rest) →
      jsize v + rest.length ≤ cs.length) ∧
    (∀ cs items rest, parseItems fuel cs = some (items, rest) →
      jsizeArr items + rest.length + 1 ≤ cs.length) ∧
    (∀ cs kvs rest, parseMembers fuel cs = some (kvs, rest) →
      jsizeObj kvs + rest.length + 1 ≤ cs.length) := by
  induction fuel with
  | zero => refine ⟨?_, ?_, ?_⟩ <;> intro cs a b h <;> simp [parseValue, parseItems, parseMembers] at h
  | succ fuel ih =>
    obtain ⟨ihv, ihi, ihm⟩ := ih
    refine ⟨?_, ?_, ?_⟩
    · intro cs v rest h
      match cs with
      | [] => simp [parseValue] at h
      | c :: cs' =>
        simp only [parseValue] at h
        split at h
        · -- 'n'
          split at h
          · simp only [Option.some.injEq, Prod.mk.injEq] at h
            obtain ⟨h1, h2⟩ := h
            subst h1; subst h2
            simp [jsize]
            omega
          · simp at h
        · -- 't'
          split at h
          · simp only [Option.some.injEq, Prod.mk.injEq] at h
            obtain ⟨h1, h2⟩ := h
            subst h1; subst h2
            simp [jsize]
            omega
          · simp at h
        · -- 'f'
          split at h
          · simp only [Option.some.injEq, Prod.mk.injEq] at h
            obtain ⟨h1, h2⟩ := h
            subst h1; subst h2
            simp [jsize]
            omega
          · simp at h
        · -- '"'
          split at h
          · rename_i out rest₀ hsb
            simp only [Option.some.injEq, Prod.mk.injEq] at h
            obtain ⟨h1, h2⟩ := h
            subst h1; subst h2
            have := parseStrBody_length cs' out rest₀ hsb
            simp only [jsize, strLength_mk, List.length_cons]
            omega
          · simp at h
        · -- '['
          split at h
          · rename_i rest₀ hws
            simp only [Option.some.injEq, Prod.mk.injEq] at h
            obtain ⟨h1, h2⟩ := h
            subst h1; subst h2
            have h1 := skipWs_length cs'
            rw [hws] at h1
            simp only [jsize, jsizeArr, List.length_cons] at *
            omega
          · split at h
            · rename_i items rest₀ hits
              simp only [Option.some.injEq, Prod.mk.injEq] at h
              obtain ⟨h1, h2⟩ := h
              subst h1; subst h2
              have h1 := skipWs_length cs'
              have h2 := ihi _ _ _ hits
              simp only [jsize, List.length_cons]
              omega
            · simp at h
        · -- '{'
          split at h
          · rename_i rest₀ hws
            simp only [Option.some.injEq, Prod.mk.injEq] at h
            obtain ⟨h1, h2⟩ := h
            subst h1; subst h2
            have h1 := skipWs_length cs'
            rw [hws] at h1
            simp only [jsize, jsizeObj, List.length_cons] at *
            omega
          · split at h
            · rename_i kvs rest₀ hmem
              simp only [Option.some.injEq, Prod.mk.injEq] at h
              obtain ⟨h1, h2⟩ := h
              subst h1; subst h2
              have h1 := skipWs_length cs'
              have h2 := ihm _ _ _ hmem
              simp only [jsize, List.length_cons]
              omega
            · simp at h
        · -- number
          split at h
          · rename_i q rest₀ hnum
            simp only [Option.some.injEq, Prod.mk.injEq] at h
            obtain ⟨h1, h2⟩ := h
            subst h1; subst h2
            have := parseNumber_length _ _ _ hnum
            simp only [jsize, List.length_cons] at *
            omega
          · simp at h
    · intro cs items rest h
      simp only [parseItems] at h
      split at h
      · simp at h
      · rename_i v rest₀ hval
        have h1 := ihv _ _ _ hval
        split at h
        · rename_i rest₂ hws
          simp only [Option.some.injEq, Prod.mk.injEq] at h
          obtain ⟨hh1, hh2⟩ := h
          subst hh1; subst hh2
          have h2 := skipWs_length rest₀
          rw [hws] at h2
          simp only [jsizeArr, List.length_cons] at *
          omega
        · rename_i rest₂ hws
          split at h
          · rename_i items' rest₃ hits
            simp only [Option.some.injEq, Prod.mk.injEq] at h
            obtain ⟨hh1, hh2⟩ := h
            subst hh1; subst hh2
            have h2 := skipWs_length rest₀
            rw [hws] at h2
            have h3 := ihi _ _ _ hits
            have h4 := skipWs_length rest₂
            simp only [jsizeArr, List.length_cons] at *
            omega
          · simp at h
        · simp at h
    · intro cs kvs rest h
      simp only [parseMembers] at h
      split at h
      · rename_i cs₁
        split at h
        · simp at h
        · rename_i kout rest₀ hsb
          have h1 := parseStrBody_length cs₁ kout rest₀ hsb
          split at h
          · rename_i rest₂ hws
            have h2 := skipWs_length rest₀
            rw [hws] at h2
            split at h
            · simp at h
            · rename_i v rest₃ hval
              have h3 := ihv _ _ _ hval
              have h4 := skipWs_length rest₂
              split at h
              · rename_i rest₅ hws2
                simp only [Option.some.injEq, Prod.mk.injEq] at h
                obtain ⟨hh1, hh2⟩ := h
                subst hh1; subst hh2
                have h5 := skipWs_length rest₃
                rw [hws2] at h5
                simp only [jsizeObj, strLength_mk, List.length_cons] at *
                omega
              · rename_i rest₅ hws2
                split at h
                · rename_i kvs' rest₆ hmem
                  simp only [Option.some.injEq, Prod.mk.injEq] at h
                  obtain ⟨hh1, hh2⟩ := h
                  subst hh1; subst hh2
                  have h5 := skipWs_length rest₃
                  rw [hws2] at h5
                  have h6 := ihm _ _ _ hmem
                  have h7 := skipWs_length rest₅
                  have h8 := objInsert_jsizeObj_le (String.mk kout) v kvs'
                  simp only [jsizeObj, strLength_mk, List.length_cons] at *
                  omega
                · simp at h
              · simp at h
          · simp at h
      · simp at h

theorem parseJson_jsize (s : String) (v : JVal) (h : parseJson s = some v) :
    jsize v ≤ s.length := by
  rw [parseJson.eq_def] at h
  split at h
  · rename_i v' rest hpv
    have h1 := (parse_length (s.data.length + 1)).1 _ _ _ hpv
    have h2 := skipWs_length s.data
    split at h
    · simp only [Option.some.injEq] at h
      subst h
      have : s.length = s.data.length := rfl
      omega
    · simp at h
  · simp at h

/-!  ## The recursive cleaner (`clean_garmin_data`)

The Python function removes `None` values and Garmin-internal keys from
nested payloads, recursively decoding strings that parse as JSON (after the
doubled-quote fixup).  It is defined here with explicit fuel; the fuel
`jsize v` is always sufficient because a successful embedded-JSON decode
strictly shrinks `jsize` (`parseJson_jsize`). -/

/-- Is this payload value Python `None`? -/
def isNull : JVal → Bool
  | .null => true
  | _ => false

/-- Does `needle` occur at the head of `hay`? -/
def leadMatch : List Char → List Char → Bool
  | [], _ => true
  | _ :: _, [] => false
  | a :: as, b :: bs => a = b && leadMatch as bs

/-- Does `needle` occur anywhere in `hay` (Python `needle in hay` on strings)? -/
def hasSubList (needle : List Char) : List Char → Bool
  | [] => needle.isEmpty
  | c :: rest => leadMatch needle (c :: rest) || hasSubList needle rest

/-- The fixed key-exclusion rule of `clean_garmin_data`:
`k in ['ownerId', 'userProfilePk', 'permissionId', 'userRoles',
'equipmentTypeId']` or `'endConditionCompare' in k`. -/
def excludedKey (k : String) : Bool :=
  k = "ownerId" || k = "userProfilePk" || k = "permissionId" || k = "userRoles" ||
  k = "equipmentTypeId" || hasSubList "endConditionCompare".data k.data

/-- One dictionary entry of the cleaner: kept (with the recursively cleaned
value) iff the value is not `None`, the key is not excluded, and the cleaned
value is not `None`. -/
def cleanEntry (rec : JVal → Option JVal) (kv : String × JVal) : Option (String × JVal) :=
  if !isNull kv.2 && !excludedKey kv.1 then (rec kv.2).map (fun w => (kv.1, w)) else none

/-- Fuel-indexed model of `clean_garmin_data`; result `none` models the
Python function returning `None`. -/
def cleanF : ℕ → JVal → Option JVal
  | 0, _ => none
  | f + 1, v =>
    match v with
    | .null => none
    | .bool b => some (.bool b)
    | .num q => some (.num q)
    | .str s =>
      match parseJson (replaceDDStr s) with
      | some w => cleanF f w
      | none => some (.str s)
    | .arr xs => some (.arr (xs.filterMap (cleanF f)))
    | .obj kvs =>
      let c := kvs.filterMap (cleanEntry (cleanF f))
      if c.isEmpty then none else some (.obj c)

/-- Model of `clean_garmin_data`. -/
def clean (v : JVal) : Option JVal := cleanF (jsize v) v

theorem jsize_le_arr {x : JVal} {xs : List JVal} (hx : x ∈ xs) :
    jsize x ≤ jsizeArr xs := by
  induction xs with
  | nil => cases hx
  | cons y ys ih =>
    rcases List.mem_cons.mp hx with rfl | hx
    · simp [jsizeArr]
    · have := ih hx
      simp only [jsizeArr]
      omega

theorem jsize_le_obj {kv : String × JVal} {kvs : List (String × JVal)} (h : kv ∈ kvs) :
    jsize kv.2 ≤ jsizeObj kvs := by
  induction kvs with
  | nil => cases h
  | cons y ys ih =>
    rcases List.mem_cons.mp h with rfl | h
    · simp [jsizeObj]; omega
    · have := ih h
      simp only [jsizeObj]
      omega

theorem parse_replaceDD_jsize {s : String} {w : JVal}
    (h : parseJson (replaceDDStr s) = some w) : jsize w ≤ s.length := by
  have h1 := parseJson_jsize _ _ h
  have h2 : (replaceDDStr s).length = (replaceDD s.data).length := rfl
  have h3 := replaceDD_length s.data
  have h4 : s.length = s.data.length := rfl
  omega

theorem cleanF_fuel : ∀ (k : ℕ) (v : JVal), jsize v ≤ k →
    ∀ f₁ f₂, jsize v ≤ f₁ → jsize v ≤ f₂ → cleanF f₁ v = cleanF f₂ v := by
  intro k
  induction k using Nat.strong_induction_on with
  | _ k ih =>
    intro v hk f₁ f₂ h₁ h₂
    have hpos := jsize_pos v
    obtain ⟨g₁, rfl⟩ : ∃ m, f₁ = m + 1 := ⟨f₁ - 1, by omega⟩
    obtain ⟨g₂, rfl⟩ : ∃ m, f₂ = m + 1 := ⟨f₂ - 1, by omega⟩
    cases v with
    | null => simp [cleanF]
    | bool b => simp [cleanF]
    | num q => simp [cleanF]
    | str s =>
      simp only [cleanF]
      rcases hp : parseJson (replaceDDStr s) with - | w
      · rfl
      · have hw := parse_replaceDD_jsize hp
        have hlt : jsize w < k := by
          simp only [jsize] at hk
          omega
        exact ih (jsize w) hlt w le_rfl g₁ g₂
          (by simp only [jsize] at h₁; omega) (by simp only [jsize] at h₂; omega)
    | arr xs =>
      simp only [cleanF, Option.some.injEq, JVal.arr.injEq]
      refine List.filterMap_congr ?_
      intro x hx
      have hle := jsize_le_arr hx
      have hlt : jsize x < k := by
        simp only [jsize] at hk
        omega
      exact ih (jsize x) hlt x le_rfl g₁ g₂
        (by simp only [jsize] at h₁; omega) (by simp only [jsize] at h₂; omega)
    | obj kvs =>
      simp only [cleanF]
      have hfm : kvs.filterMap (cleanEntry (cleanF g₁)) =
          kvs.filterMap (cleanEntry (cleanF g₂)) := by
        refine List.filterMap_congr ?_
        intro kv hkv
        have hle := jsize_le_obj hkv
        have hlt : jsize kv.2 < k := by
          simp only [jsize] at hk
          omega
        simp only [cleanEntry]
        rw [ih (jsize kv.2) hlt kv.2 le_rfl g₁ g₂
          (by simp only [jsize] at h₁; omega) (by simp only [jsize] at h₂; omega)]
      rw [hfm]

theorem clean_nullEq : clean .null = none := rfl

theorem clean_boolEq (b : Bool) : clean (.bool b) = some (.bool b) := rfl

theorem clean_numEq (q : ℚ) : clean (.num q) = some (.num q) := rfl

theorem clean_strEq (s : String) :
    clean (.str s) =
      match parseJson (replaceDDStr s) with
      | some w => clean w
      | none => some (.str s) := by
  show cleanF (s.length + 2) (.str s) = _
  have : cleanF (s.length + 2) (.str s) = cleanF (s.length + 1 + 1) (.str s) := rfl
  rw [this]
  simp only [cleanF]
  rcases hp : parseJson (replaceDDStr s) with - | w
  · rfl
  · have hw := parse_replaceDD_jsize hp
    exact cleanF_fuel (jsize w) w le_rfl (s.length + 1) (jsize w) (by omega) le_rfl

theorem clean_arrEq (xs : List JVal) :
    clean (.arr xs) = some (.arr (xs.filterMap clean)) := by
  show cleanF (jsizeArr xs + 1) (.arr xs) = _
  simp only [cleanF, Option.some.injEq, JVal.arr.injEq]
  refine List.filterMap_congr ?_
  intro x hx
  exact cleanF_fuel (jsize x) x le_rfl _ _ (le_trans (jsize_le_arr hx) (by omega)) le_rfl

theorem clean_objEq (kvs : List (String × JVal)) :
    clean (.obj kvs) =
      (if (kvs.filterMap (cleanEntry clean)).isEmpty then none
       else some (.obj (kvs.filterMap (cleanEntry clean)))) := by
  show cleanF (jsizeObj kvs + 1) (.obj kvs) = _
  simp only [cleanF]
  have hfm : kvs.filterMap (cleanEntry (cleanF (jsizeObj kvs))) =
      kvs.filterMap (cleanEntry clean) := by
    refine List.filterMap_congr ?_
    intro kv hkv
    simp only [cleanEntry]
    rw [cleanF_fuel (jsize kv.2) kv.2 le_rfl (jsizeObj kvs) (jsize kv.2)
      (le_trans (jsize_le_obj hkv) (by omega)) le_rfl]
    rfl
  rw [hfm]

theorem filterMap_id_of {α : Type} (l : List α) (f : α → Option α)
    (h : ∀ x ∈ l, f x = some x) : l.filterMap f = l := by
  induction l with
  | nil => simp
  | cons x xs ih =>
    rw [List.filterMap_cons, h x (List.mem_cons_self x xs)]
    rw [ih (fun y hy => h y (List.mem_cons_of_mem x hy))]

theorem clean_ne_some_null : ∀ (k : ℕ) (v : JVal), jsize v ≤ k → clean v ≠ some .null := by
  intro k
  induction k using Nat.strong_induction_on with
  | _ k ih =>
    intro v hk
    cases v with
    | null => simp [clean_nullEq]
    | bool b => simp [clean_boolEq]
    | num q => simp [clean_numEq]
    | str s =>
      rw [clean_strEq]
      rcases hp : parseJson (replaceDDStr s) with - | w
      · simp
      · have hw := parse_replaceDD_jsize hp
        have : jsize w < k := by simp only [jsize] at hk; omega
        exact ih (jsize w) this w le_rfl
    | arr xs => simp [clean_arrEq]
    | obj kvs =>
      rw [clean_objEq]
      split <;> simp

theorem clean_fix : ∀ (k : ℕ) (v : JVal), jsize v ≤ k →
    ∀ w, clean v = some w → clean w = some w := by
  intro k
  induction k using Nat.strong_induction_on with
  | _ k ih =>
    intro v hk w hw
    cases v with
    | null => simp [clean_nullEq] at hw
    | bool b =>
      rw [clean_boolEq, Option.some.injEq] at hw
      subst hw
      exact clean_boolEq b
    | num q =>
      rw [clean_numEq, Option.some.injEq] at hw
      subst hw
      exact clean_numEq q
    | str s =>
      rw [clean_strEq] at hw
      rcases hp : parseJson (replaceDDStr s) with - | u
      · rw [hp] at hw
        simp only [Option.some.injEq] at hw
        subst hw
        rw [clean_strEq, hp]
      · rw [hp] at hw
        have hu := parse_replaceDD_jsize hp
        have hlt : jsize u < k := by simp only [jsize] at hk; omega
        exact ih (jsize u) hlt u le_rfl w hw
    | arr xs =>
      rw [clean_arrEq, Option.some.injEq] at hw
      subst hw
      rw [clean_arrEq, Option.some.injEq, JVal.arr.injEq]
      refine filterMap_id_of _ _ ?_
      intro y hy
      obtain ⟨x, hx, hxy⟩ := List.mem_filterMap.mp hy
      have hlt : jsize x < k := by
        have := jsize_le_arr hx
        simp only [jsize] at hk
        omega
      exact ih (jsize x) hlt x le_rfl y hxy
    | obj kvs =>
      rw [clean_objEq] at hw
      split at hw
      · simp at hw
      · rename_i hne
        simp only [Option.some.injEq] at hw
        subst hw
        rw [clean_objEq]
        have hid : (kvs.filterMap (cleanEntry clean)).filterMap (cleanEntry clean) =
            kvs.filterMap (cleanEntry clean) := by
          refine filterMap_id_of _ _ ?_
          intro ky hky
          obtain ⟨kv, hkv, hkvy⟩ := List.mem_filterMap.mp hky
          simp only [cleanEntry] at hkvy
          split at hkvy
          · rename_i hcond
            rcases hcl : clean kv.2 with - | u
            · rw [hcl] at hkvy; simp at hkvy
            · rw [hcl] at hkvy
              simp only [Option.map_some', Option.some.injEq] at hkvy
              have hlt : jsize kv.2 < k := by
                have := jsize_le_obj hkv
                simp only [jsize] at hk
                omega
              have hfix := ih (jsize kv.2) hlt kv.2 le_rfl u hcl
              have hnn : u ≠ .null := by
                intro hun
                subst hun
                exact clean_ne_some_null (jsize kv.2) kv.2 le_rfl hcl
              subst hkvy
              simp only [cleanEntry]
              have hcond2 : (!isNull u && !excludedKey kv.1) = true := by
                simp only [Bool.and_eq_true, Bool.not_eq_eq_eq_not, Bool.not_true] at hcond ⊢
                refine ⟨?_, hcond.2⟩
                cases u <;> simp [isNull] at hnn ⊢
              rw [hcond2]
              simp only [if_true, hfix, Option.map_some']
          · simp at hkvy
        rw [hid]
        split
        · rename_i hemp
          exact absurd hemp hne
        · rfl

/-- `clean` applied to the result of `clean` (Python `clean(clean(x))`;
`clean(None)` is `None`). -/
def cleanTwice (v : JVal) : Option JVal := (clean v).bind clean

/-- C7: the recursive cleaner is idempotent: for every input value `x`,
`clean(clean(x)) == clean(x)`. -/
theorem C7_clean_idempotent (v : JVal) : cleanTwice v = clean v := by
  unfold cleanTwice
  rcases hc : clean v with - | w
  · rfl
  · simpa using clean_fix (jsize v) v le_rfl w hc

/-- C9: cleaning never drops a scalar zero: scalars (including `0`) are
returned unchanged; a list element equal to `0` survives in the cleaned list;
a dictionary entry with value `0` whose key is not excluded survives in the
cleaned dictionary.  Only `None` values and excluded keys are dropped. -/
theorem C9_clean_keeps_zero :
    (∀ q : ℚ, clean (.num q) = some (.num q)) ∧
    (∀ (xs ys : List JVal), clean (.arr xs) = some (.arr ys) →
      JVal.num 0 ∈ xs → JVal.num 0 ∈ ys) ∧
    (∀ (kvs c : List (String × JVal)) (k : String),
      clean (.obj kvs) = some (.obj c) → (k, JVal.num 0) ∈ kvs →
      excludedKey k = false → (k, JVal.num 0) ∈ c) := by
  refine ⟨clean_numEq, ?_, ?_⟩
  · intro xs ys hc hx
    rw [clean_arrEq, Option.some.injEq, JVal.arr.injEq] at hc
    subst hc
    exact List.mem_filterMap.mpr ⟨.num 0, hx, clean_numEq 0⟩
  · intro kvs c k hc hk hex
    rw [clean_objEq] at hc
    split at hc
    · simp at hc
    · simp only [Option.some.injEq, JVal.obj.injEq] at hc
      subst hc
      refine List.mem_filterMap.mpr ⟨(k, .num 0), hk, ?_⟩
      simp [cleanEntry, isNull, hex, clean_numEq]

/-- Closed witness for C9 at concrete inputs: the scalar zero inside the
list `[0]` and inside the dict `{"steps": 0}` survives cleaning. -/
theorem C9_clean_keeps_zero_witness :
    JVal.num 0 ∈ [JVal.num 0].filterMap clean ∧
    ("steps", JVal.num 0) ∈ [("steps", JVal.num 0)].filterMap (cleanEntry clean) := by
  constructor
  · exact C9_clean_keeps_zero.2.1 [JVal.num 0] _ (clean_arrEq _) (List.mem_singleton.mpr rfl)
  · exact C9_clean_keeps_zero.2.2 [("steps", JVal.num 0)] _ "steps"
      (by rw [clean_objEq]; rfl) (List.mem_singleton.mpr rfl) (by rfl)

/-!  ## Stress→mood derivation (`map_garmin_stress_to_mood`)

The Python function takes the arithmetic mean of the day's valid stress
samples — a float, modelled as `ℚ` — and returns `(mood_value, mood_category)`
(`(None, None)` when there is no valid stress input). -/

/-- Model of `map_garmin_stress_to_mood` (source lines 147–174). -/
def map_garmin_stress_to_mood : Option ℚ → Option ℤ × Option String
  | none => (none, none)
  | some s =>
    if s < 0 then (none, none)
    else if 0 ≤ s ∧ s ≤ 10 then (some 95, some "Excited")
    else if 11 ≤ s ∧ s ≤ 25 then (some 85, some "Happy")
    else if 26 ≤ s ∧ s ≤ 35 then (some 75, some "Confident")
    else if 36 ≤ s ∧ s ≤ 50 then (some 65, some "Calm")
    else if 51 ≤ s ∧ s ≤ 60 then (some 55, some "Thoughtful")
    else if 61 ≤ s ∧ s ≤ 75 then (some 45, some "Neutral")
    else if 76 ≤ s ∧ s ≤ 85 then (some 35, some "Worried")
    else if 86 ≤ s ∧ s ≤ 95 then (some 25, some "Angry")
    else if 96 ≤ s ∧ s ≤ 100 then (some 15, some "Sad/Tired")
    else (some 50, some "Neutral")

/-- The arithmetic mean `sum(valid_stress_values) / len(valid_stress_values)`
computed by the stress fetcher (source lines 561–562). -/
def stressAverage (vals : List ℤ) : ℚ := ((vals.sum : ℤ) : ℚ) / (vals.length : ℚ)

/-- C6: the stress→mood mapping follows the fixed lookup table exactly:
`None` and negative averages give no mood; each of the nine bands gives its
tabulated `(value, category)`; any other value (band gaps and values above
100) gives the defensive default `(50, "Neutral")`; and the three concrete
spec examples hold: `5 → (95, "Excited")`, `100 → (15, "Sad/Tired")`,
`-1 → (None, None)`. -/
theorem C6_stress_mood_table :
    map_garmin_stress_to_mood none = (none, none) ∧
    (∀ q : ℚ, q < 0 → map_garmin_stress_to_mood (some q) = (none, none)) ∧
    (∀ q : ℚ, 0 ≤ q → q ≤ 10 → map_garmin_stress_to_mood (some q) = (some 95, some "Excited")) ∧
    (∀ q : ℚ, 11 ≤ q → q ≤ 25 → map_garmin_stress_to_mood (some q) = (some 85, some "Happy")) ∧
    (∀ q : ℚ, 26 ≤ q → q ≤ 35 → map_garmin_stress_to_mood (some q) = (some 75, some "Confident")) ∧
    (∀ q : ℚ, 36 ≤ q → q ≤ 50 → map_garmin_stress_to_mood (some q) = (some 65, some "Calm")) ∧
    (∀ q : ℚ, 51 ≤ q → q ≤ 60 → map_garmin_stress_to_mood (some q) = (some 55, some "Thoughtful")) ∧
    (∀ q : ℚ, 61 ≤ q → q ≤ 75 → map_garmin_stress_to_mood (some q) = (some 45, some "Neutral")) ∧
    (∀ q : ℚ, 76 ≤ q → q ≤ 85 → map_garmin_stress_to_mood (some q) = (some 35, some "Worried")) ∧
    (∀ q : ℚ, 86 ≤ q → q ≤ 95 → map_garmin_stress_to_mood (some q) = (some 25, some "Angry")) ∧
    (∀ q : ℚ, 96 ≤ q → q ≤ 100 → map_garmin_stress_to_mood (some q) = (some 15, some "Sad/Tired")) ∧
    (∀ q : ℚ, 0 ≤ q → ¬ q ≤ 10 →
      ¬(11 ≤ q ∧ q ≤ 25) →
      ¬(26 ≤ q ∧ q ≤ 35) →
      ¬(36 ≤ q ∧ q ≤ 50) →
      ¬(51 ≤ q ∧ q ≤ 60) →
      ¬(61 ≤ q ∧ q ≤ 75) →
      ¬(76 ≤ q ∧ q ≤ 85) →
      ¬(86 ≤ q ∧ q ≤ 95) →
      ¬(96 ≤ q ∧ q ≤ 100) →
      map_garmin_stress_to_mood (some q) = (some 50, some "Neutral")) ∧
    map_garmin_stress_to_mood (some 5) = (some 95, some "Excited") ∧
    map_garmin_stress_to_mood (some 100) = (some 15, some "Sad/Tired") ∧
    map_garmin_stress_to_mood (some (-1)) = (none, none) := by
  refine ⟨rfl, ?_, ?_, ?_, ?_, ?_, ?_, ?_, ?_, ?_, ?_, ?_, ?_, ?_, ?_⟩
  · intro q hq
    simp only [map_garmin_stress_to_mood]
    rw [if_pos hq]
  · intro q hlo hhi
    simp only [map_garmin_stress_to_mood]
    rw [if_neg (show ¬ q < 0 by linarith)]
    rw [if_pos (⟨hlo, hhi⟩ : (0:ℚ) ≤ q ∧ q ≤ 10)]
  · intro q hlo hhi
    simp only [map_garmin_stress_to_mood]
    rw [if_neg (show ¬ q < 0 by linarith)]
    rw [if_neg (fun hc => by linarith [hc.2] : ¬(0 ≤ q ∧ q ≤ 10))]
    rw [if_pos (⟨hlo, hhi⟩ : (11:ℚ) ≤ q ∧ q ≤ 25)]
  · intro q hlo hhi
    simp only [map_garmin_stress_to_mood]
    rw [if_neg (show ¬ q < 0 by linarith)]
    rw [if_neg (fun hc => by linarith [hc.2] : ¬(0 ≤ q ∧ q ≤ 10))]
    rw [if_neg (fun hc => by linarith [hc.2] : ¬(11 ≤ q ∧ q ≤ 25))]
    rw [if_pos (⟨hlo, hhi⟩ : (26:ℚ) ≤ q ∧ q ≤ 35)]
  · intro q hlo hhi
    simp only [map_garmin_stress_to_mood]
    rw [if_neg (show ¬ q < 0 by linarith)]
    rw [if_neg (fun hc => by linarith [hc.2] : ¬(0 ≤ q ∧ q ≤ 10))]
    rw [if_neg (fun hc => by linarith [hc.2] : ¬(11 ≤ q ∧ q ≤ 25))]
    rw [if_neg (fun hc => by linarith [hc.2] : ¬(26 ≤ q ∧ q ≤ 35))]
    rw [if_pos (⟨hlo, hhi⟩ : (36:ℚ) ≤ q ∧ q ≤ 50)]
  · intro q hlo hhi
    simp only [map_garmin_stress_to_mood]
    rw [if_neg (show ¬ q < 0 by linarith)]
    rw [if_neg (fun hc => by linarith [hc.2] : ¬(0 ≤ q ∧ q ≤ 10))]
    rw [if_neg (fun hc => by linarith [hc.2] : ¬(11 ≤ q ∧ q ≤ 25))]
    rw [if_neg (fun hc => by linarith [hc.2] : ¬(26 ≤ q ∧ q ≤ 35))]
    rw [if_neg (fun hc => by linarith [hc.2] : ¬(36 ≤ q ∧ q ≤ 50))]
    rw [if_pos (⟨hlo, hhi⟩ : (51:ℚ) ≤ q ∧ q ≤ 60)]
  · intro q hlo hhi
    simp only [map_garmin_stress_to_mood]
    rw [if_neg (show ¬ q < 0 by linarith)]
    rw [if_neg (fun hc => by linarith [hc.2] : ¬(0 ≤ q ∧ q ≤ 10))]
    rw [if_neg (fun hc => by linarith [hc.2] : ¬(11 ≤ q ∧ q ≤ 25))]
    rw [if_neg (fun hc => by linarith [hc.2] : ¬(26 ≤ q ∧ q ≤ 35))]
    rw [if_neg (fun hc => by linarith [hc.2] : ¬(36 ≤ q ∧ q ≤ 50))]
    rw [if_neg (fun hc => by linarith [hc.2] : ¬(51 ≤ q ∧ q ≤ 60))]
    rw [if_pos (⟨hlo, hhi⟩ : (61:ℚ) ≤ q ∧ q ≤ 75)]
  · intro q hlo hhi
    simp only [map_garmin_stress_to_mood]
    rw [if_neg (show ¬ q < 0 by linarith)]
    rw [if_neg (fun hc => by linarith [hc.2] : ¬(0 ≤ q ∧ q ≤ 10))]
    rw [if_neg (fun hc => by linarith [hc.2] : ¬(11 ≤ q ∧ q ≤ 25))]
    rw [if_neg (fun hc => by linarith [hc.2] : ¬(26 ≤ q ∧ q ≤ 35))]
    rw [if_neg (fun hc => by linarith [hc.2] : ¬(36 ≤ q ∧ q ≤ 50))]
    rw [if_neg (fun hc => by linarith [hc.2] : ¬(51 ≤ q ∧ q ≤ 60))]
    rw [if_neg (fun hc => by linarith [hc.2] : ¬(61 ≤ q ∧ q ≤ 75))]
    rw [if_pos (⟨hlo, hhi⟩ : (76:ℚ) ≤ q ∧ q ≤ 85)]
  · intro q hlo hhi
    simp only [map_garmin_stress_to_mood]
    rw [if_neg (show ¬ q < 0 by linarith)]
    rw [if_neg (fun hc => by linarith [hc.2] : ¬(0 ≤ q ∧ q ≤ 10))]
    rw [if_neg (fun hc => by linarith [hc.2] : ¬(11 ≤ q ∧ q ≤ 25))]
    rw [if_neg (fun hc => by linarith [hc.2] : ¬(26 ≤ q ∧ q ≤ 35))]
    rw [if_neg (fun hc => by linarith [hc.2] : ¬(36 ≤ q ∧ q ≤ 50))]
    rw [if_neg (fun hc => by linarith [hc.2] : ¬(51 ≤ q ∧ q ≤ 60))]
    rw [if_neg (fun hc => by linarith [hc.2] : ¬(61 ≤ q ∧ q ≤ 75))]
    rw [if_neg (fun hc => by linarith [hc.2] : ¬(76 ≤ q ∧ q ≤ 85))]
    rw [if_pos (⟨hlo, hhi⟩ : (86:ℚ) ≤ q ∧ q ≤ 95)]
  · intro q hlo hhi
    simp only [map_garmin_stress_to_mood]
    rw [if_neg (show ¬ q < 0 by linarith)]
    rw [if_neg (fun hc => by linarith [hc.2] : ¬(0 ≤ q ∧ q ≤ 10))]
    rw [if_neg (fun hc => by linarith [hc.2] : ¬(11 ≤ q ∧ q ≤ 25))]
    rw [if_neg (fun hc => by linarith [hc.2] : ¬(26 ≤ q ∧ q ≤ 35))]
    rw [if_neg (fun hc => by linarith [hc.2] : ¬(36 ≤ q ∧ q ≤ 50))]
    rw [if_neg (fun hc => by linarith [hc.2] : ¬(51 ≤ q ∧ q ≤ 60))]
    rw [if_neg (fun hc => by linarith [hc.2] : ¬(61 ≤ q ∧ q ≤ 75))]
    rw [if_neg (fun hc => by linarith [hc.2] : ¬(76 ≤ q ∧ q ≤ 85))]
    rw [if_neg (fun hc => by linarith [hc.2] : ¬(86 ≤ q ∧ q ≤ 95))]
    rw [if_pos (⟨hlo, hhi⟩ : (96:ℚ) ≤ q ∧ q ≤ 100)]
  · intro q h0 hn1 hn2 hn3 hn4 hn5 hn6 hn7 hn8 hn9
    simp only [map_garmin_stress_to_mood]
    rw [if_neg (show ¬ q < 0 by linarith)]
    rw [if_neg (fun hc => hn1 hc.2)]
    rw [if_neg hn2, if_neg hn3, if_neg hn4, if_neg hn5, if_neg hn6, if_neg hn7,
      if_neg hn8, if_neg hn9]
  · show map_garmin_stress_to_mood (some 5) = (some 95, some "Excited")
    simp only [map_garmin_stress_to_mood]
    norm_num
  · show map_garmin_stress_to_mood (some 100) = (some 15, some "Sad/Tired")
    simp only [map_garmin_stress_to_mood]
    norm_num
  · show map_garmin_stress_to_mood (some (-1)) = (none, none)
    simp only [map_garmin_stress_to_mood]
    norm_num

/-- Closed witness for C6: the hypothesis-bearing band clauses evaluated at
concrete averages 13 (band "Happy") and 101 (defensive default). -/
theorem C6_stress_mood_table_witness :
    map_garmin_stress_to_mood (some 13) = (some 85, some "Happy") ∧
    map_garmin_stress_to_mood (some 101) = (some 50, some "Neutral") := by
  constructor
  · exact C6_stress_mood_table.2.2.2.1 13 (by norm_num) (by norm_num)
  · exact C6_stress_mood_table.2.2.2.2.2.2.2.2.2.2.2.1 101 (by norm_num) (by norm_num)
      (by norm_num) (by norm_num) (by norm_num) (by norm_num) (by norm_num)
      (by norm_num) (by norm_num) (by norm_num)

set_option maxHeartbeats 1600000 in
/-- C10 (implicit): the band conditions use integer-style bounds but the
function is applied to the arithmetic mean of stress samples, which can be a
non-integer rational (e.g. `stressAverage [10, 11] = 21/2`); every average
strictly inside a gap between adjacent bands lies in the valid range
`[0, 100]` yet maps to the defensive default `(50, "Neutral")` rather than
either neighboring band's value. -/
theorem C10_band_gap_defaults :
    stressAverage [10, 11] = 21 / 2 ∧
    ∀ q : ℚ,
      ((10 < q ∧ q < 11) ∨ (25 < q ∧ q < 26) ∨ (35 < q ∧ q < 36) ∨
       (50 < q ∧ q < 51) ∨ (60 < q ∧ q < 61) ∨ (75 < q ∧ q < 76) ∨
       (85 < q ∧ q < 86) ∨ (95 < q ∧ q < 96)) →
      0 ≤ q ∧ q ≤ 100 ∧
        map_garmin_stress_to_mood (some q) = (some 50, some "Neutral") := by
  constructor
  · norm_num [stressAverage]
  · intro q h
    refine ⟨?_, ?_, ?_⟩
    · rcases h with ⟨ha, hb⟩ | ⟨ha, hb⟩ | ⟨ha, hb⟩ | ⟨ha, hb⟩ | ⟨ha, hb⟩ | ⟨ha, hb⟩ | ⟨ha, hb⟩ | ⟨ha, hb⟩ <;> linarith
    · rcases h with ⟨ha, hb⟩ | ⟨ha, hb⟩ | ⟨ha, hb⟩ | ⟨ha, hb⟩ | ⟨ha, hb⟩ | ⟨ha, hb⟩ | ⟨ha, hb⟩ | ⟨ha, hb⟩ <;> linarith
    · simp only [map_garmin_stress_to_mood]
      split_ifs <;>
        first
        | rfl
        | (exfalso
           rcases h with ⟨ha, hb⟩ | ⟨ha, hb⟩ | ⟨ha, hb⟩ | ⟨ha, hb⟩ | ⟨ha, hb⟩ | ⟨ha, hb⟩ | ⟨ha, hb⟩ | ⟨ha, hb⟩ <;>
             (try simp_all only [not_and, not_le, not_lt]) <;> linarith)

/-- Closed witness for C10 at the concrete gap value `21/2`. -/
theorem C10_band_gap_defaults_witness :
    map_garmin_stress_to_mood (some (21 / 2)) = (some 50, some "Neutral") :=
  (C10_band_gap_defaults.2 (21 / 2) (Or.inl (by norm_num))).2.2

/-!  ## Unit conversion (`convert_activities_units`, `convert_user_summary_units`)

Activity records are Python dicts; `record.get(k)` returns `None` both for an
absent key and for a key holding `None`, so `pyGetV` returns `JVal.null` in
both cases.  Assignment `record[k] = v` replaces the value in place or appends
the key (`objInsert`).  Applying a conversion to a non-numeric non-`None`
value raises `TypeError`, modelled as `Except.error ()`. -/

/-- Keys of a Python dict, in order. -/
def pyKeys (d : List (String × JVal)) : List String := d.map Prod.fst

/-- Python `d.get(k)`: the value under `k`, or `None` when absent. -/
def pyGetV (d : List (String × JVal)) (k : String) : JVal :=
  match d.find? (fun kv => kv.1 == k) with
  | some kv => kv.2
  | none => .null

/-- `grams_to_kg`. -/
def grams_to_kg (g : ℚ) : ℚ := g / 1000

/-- `meters_to_km`. -/
def meters_to_km (m : ℚ) : ℚ := m / 1000

/-- `seconds_to_minutes`. -/
def seconds_to_minutes (s : ℚ) : ℚ := s / 60

/-- `safe_convert(value, f)`: `None` passes through; a number is converted;
anything else raises `TypeError` (`none`). -/
def safe_convert (v : JVal) (f : ℚ → ℚ) : Option JVal :=
  match v with
  | .null => some .null
  | .num q => some (.num (f q))
  | _ => none

/-- One field update of `convert_activities_units`:
`a[k] = safe_convert(a.get(k), f)`. -/
def convertField (a : List (String × JVal)) (k : String) (f : ℚ → ℚ) :
    Except Unit (List (String × JVal)) :=
  match safe_convert (pyGetV a k) f with
  | some v => .ok (objInsert k v a)
  | none => .error ()

/-- Model of the per-record body of `convert_activities_units`
(source lines 130–138): the four named fields are converted in order. -/
def convertActivity (a : List (String × JVal)) : Except Unit (List (String × JVal)) := do
  let a₁ ← convertField a "distance" meters_to_km
  let a₂ ← convertField a₁ "duration" seconds_to_minutes
  let a₃ ← convertField a₂ "elapsedDuration" seconds_to_minutes
  convertField a₃ "movingDuration" seconds_to_minutes

/-- Model of `convert_activities_units` over the activity list; an exception
for any record aborts the whole request. -/
def convert_activities_units : List (List (String × JVal)) →
    Except Unit (List (List (String × JVal)))
  | [] => .ok []
  | a :: rest => do
    let a' ← convertActivity a
    let rest' ← convert_activities_units rest
    pure (a' :: rest')

/-- Model of `convert_user_summary_units` (source lines 140–145): converts
`totalWeight` only when the summary is truthy and the key is present. -/
def convert_user_summary_units (s : List (String × JVal)) :
    Except Unit (List (String × JVal)) :=
  if !s.isEmpty && (pyKeys s).contains "totalWeight" then
    match safe_convert (pyGetV s "totalWeight") grams_to_kg with
    | some v => .ok (objInsert "totalWeight" v s)
    | none => .error ()
  else .ok s

/-- A field value that is `None` or numeric (the shapes on which the
conversion cannot raise). -/
def numOrNull (v : JVal) : Prop := v = JVal.null ∨ ∃ q : ℚ, v = JVal.num q

theorem pyGetV_objInsert_same (d : List (String × JVal)) (k : String) (v : JVal) :
    pyGetV (objInsert k v d) k = v := by
  induction d with
  | nil => simp [objInsert, pyGetV, List.find?]
  | cons kv rest ih =>
    simp only [objInsert]
    split
    · simp [pyGetV, List.find?]
    · rename_i hne
      simp only [pyGetV, List.find?] at ih ⊢
      rw [show (kv.1 == k) = false by simpa using hne]
      exact ih

theorem pyGetV_objInsert_other (d : List (String × JVal)) (k k' : String) (v : JVal)
    (h : k' ≠ k) : pyGetV (objInsert k v d) k' = pyGetV d k' := by
  induction d with
  | nil =>
    simp only [objInsert, pyGetV, List.find?]
    rw [show (k == k') = false by simpa using fun hh => h hh.symm]
  | cons kv rest ih =>
    simp only [objInsert]
    split
    · rename_i he
      simp only [pyGetV, List.find?]
      rw [show (k == k') = false by simpa using fun hh => h hh.symm]
      rw [show (kv.1 == k') = false by simpa [he] using fun hh => h hh.symm]
    · simp only [pyGetV, List.find?] at ih ⊢
      cases hkv : (kv.1 == k') with
      | true => rfl
      | false => exact ih

theorem mem_pyKeys_objInsert (d : List (String × JVal)) (k k' : String) (v : JVal) :
    k' ∈ pyKeys (objInsert k v d) ↔ k' = k ∨ k' ∈ pyKeys d := by
  induction d with
  | nil => simp [objInsert, pyKeys]
  | cons kv rest ih =>
    simp only [objInsert]
    split
    · rename_i he
      subst he
      simp [pyKeys]
    · simp only [pyKeys, List.map_cons, List.mem_cons] at ih ⊢
      rw [ih]
      tauto

theorem convertField_ok (a : List (String × JVal)) (k : String) (f : ℚ → ℚ)
    (h : numOrNull (pyGetV a k)) :
    ∃ a', convertField a k f = .ok a' ∧
      (∀ k', k' ≠ k → pyGetV a' k' = pyGetV a k') ∧
      (∀ k', k' ∈ pyKeys a' ↔ k' = k ∨ k' ∈ pyKeys a) ∧
      (pyGetV a k = .null → pyGetV a' k = .null) ∧
      (∀ q : ℚ, pyGetV a k = .num q → pyGetV a' k = .num (f q)) := by
  rcases h with hnull | ⟨q, hq⟩
  · refine ⟨objInsert k .null a, ?_, ?_, ?_, ?_, ?_⟩
    · simp [convertField, hnull, safe_convert]
    · intro k' hk'; exact pyGetV_objInsert_other a k k' _ hk'
    · intro k'; exact mem_pyKeys_objInsert a k k' _
    · intro _; exact pyGetV_objInsert_same a k _
    · intro q hq; rw [hnull] at hq; cases hq
  · refine ⟨objInsert k (.num (f q)) a, ?_, ?_, ?_, ?_, ?_⟩
    · simp [convertField, hq, safe_convert]
    · intro k' hk'; exact pyGetV_objInsert_other a k k' _ hk'
    · intro k'; exact mem_pyKeys_objInsert a k k' _
    · intro hnull; rw [hnull] at hq; cases hq
    · intro q' hq'
      rw [hq] at hq'
      injection hq' with hq''
      subst hq''
      exact pyGetV_objInsert_same a k _

theorem pyKeys_contains_of_ne_null (s : List (String × JVal)) (k : String)
    (h : pyGetV s k ≠ .null) : (pyKeys s).contains k = true := by
  induction s with
  | nil => simp [pyGetV, List.find?] at h
  | cons kv rest ih =>
    simp only [pyGetV, List.find?] at h
    cases hkv : (kv.1 == k) with
    | true =>
      simp only [pyKeys, List.map_cons, List.contains_cons]
      rw [show (k == kv.1) = true by simpa using (by simpa using hkv : kv.1 = k).symm]
      simp
    | false =>
      rw [hkv] at h
      simp only [pyKeys, List.map_cons, List.contains_cons]
      have := ih (by simpa [pyGetV] using h)
      simp only [pyKeys] at this
      rw [this]
      simp

/-- C8 (amended): `convertActivity` applies the fixed scalar conversions
(meters→km: `/1000`; seconds→minutes: `/60`) to the four named fields only and
leaves every other field unchanged (value and presence); a present numeric
named field is divided, a `None`-or-absent named field is never defaulted to
zero — but, amending the claim, an absent named field does not stay absent:
after conversion all four named keys are present (with `null` for a missing
value).  `convert_user_summary_units` converts `totalWeight` (grams→kg:
`/1000`) only when present — there an absent field genuinely stays absent. -/
theorem C8_convert_units_frame :
    (∀ a : List (String × JVal),
      numOrNull (pyGetV a "distance") → numOrNull (pyGetV a "duration") →
      numOrNull (pyGetV a "elapsedDuration") → numOrNull (pyGetV a "movingDuration") →
      ∃ a', convertActivity a = .ok a' ∧
        (∀ k, k ∉ ["distance", "duration", "elapsedDuration", "movingDuration"] →
          pyGetV a' k = pyGetV a k ∧ (k ∈ pyKeys a' ↔ k ∈ pyKeys a)) ∧
        (∀ k ∈ ["distance", "duration", "elapsedDuration", "movingDuration"],
          k ∈ pyKeys a') ∧
        (∀ q : ℚ, pyGetV a "distance" = .num q → pyGetV a' "distance" = .num (q / 1000)) ∧
        (pyGetV a "distance" = .null → pyGetV a' "distance" = .null) ∧
        (∀ q : ℚ, pyGetV a "duration" = .num q → pyGetV a' "duration" = .num (q / 60)) ∧
        (pyGetV a "duration" = .null → pyGetV a' "duration" = .null) ∧
        (∀ q : ℚ, pyGetV a "elapsedDuration" = .num q →
          pyGetV a' "elapsedDuration" = .num (q / 60)) ∧
        (pyGetV a "elapsedDuration" = .null → pyGetV a' "elapsedDuration" = .null) ∧
        (∀ q : ℚ, pyGetV a "movingDuration" = .num q →
          pyGetV a' "movingDuration" = .num (q / 60)) ∧
        (pyGetV a "movingDuration" = .null → pyGetV a' "movingDuration" = .null)) ∧
    (∀ s : List (String × JVal), "totalWeight" ∉ pyKeys s →
      convert_user_summary_units s = .ok s) ∧
    (∀ (s : List (String × JVal)) (q : ℚ), pyGetV s "totalWeight" = JVal.num q →
      ∃ s', convert_user_summary_units s = .ok s' ∧
        pyGetV s' "totalWeight" = .num (q / 1000) ∧
        ∀ k, k ≠ "totalWeight" → pyGetV s' k = pyGetV s k) := by
  refine ⟨?_, ?_, ?_⟩
  · intro a h1 h2 h3 h4
    obtain ⟨a₁, e₁, f₁, m₁, n₁, c₁⟩ := convertField_ok a "distance" meters_to_km h1
    have h2' : numOrNull (pyGetV a₁ "duration") := by
      rw [f₁ _ (by decide)]; exact h2
    obtain ⟨a₂, e₂, f₂, m₂, n₂, c₂⟩ := convertField_ok a₁ "duration" seconds_to_minutes h2'
    have h3' : numOrNull (pyGetV a₂ "elapsedDuration") := by
      rw [f₂ _ (by decide), f₁ _ (by decide)]; exact h3
    obtain ⟨a₃, e₃, f₃, m₃, n₃, c₃⟩ :=
      convertField_ok a₂ "elapsedDuration" seconds_to_minutes h3'
    have h4' : numOrNull (pyGetV a₃ "movingDuration") := by
      rw [f₃ _ (by decide), f₂ _ (by decide), f₁ _ (by decide)]; exact h4
    obtain ⟨a₄, e₄, f₄, m₄, n₄, c₄⟩ :=
      convertField_ok a₃ "movingDuration" seconds_to_minutes h4'
    refine ⟨a₄, ?_, ?_, ?_, ?_, ?_, ?_, ?_, ?_, ?_, ?_, ?_⟩
    · simp [convertActivity, e₁, e₂, e₃, e₄, bind, Except.bind]
    · intro k hk
      simp only [List.mem_cons, List.not_mem_nil, or_false, not_or] at hk
      obtain ⟨k1, k2, k3, k4⟩ := hk
      constructor
      · rw [f₄ _ k4, f₃ _ k3, f₂ _ k2, f₁ _ k1]
      · rw [m₄ k, m₃ k, m₂ k, m₁ k]
        simp [k1, k2, k3, k4]
    · intro k hk
      simp only [List.mem_cons, List.not_mem_nil, or_false] at hk
      rcases hk with rfl | rfl | rfl | rfl <;> simp [m₁, m₂, m₃, m₄]
    · intro q hq
      rw [f₄ _ (by decide), f₃ _ (by decide), f₂ _ (by decide)]
      exact c₁ q hq
    · intro hq
      rw [f₄ _ (by decide), f₃ _ (by decide), f₂ _ (by decide)]
      exact n₁ hq
    · intro q hq
      rw [f₄ _ (by decide), f₃ _ (by decide)]
      exact c₂ q (by rw [f₁ _ (by decide)]; exact hq)
    · intro hq
      rw [f₄ _ (by decide), f₃ _ (by decide)]
      exact n₂ (by rw [f₁ _ (by decide)]; exact hq)
    · intro q hq
      rw [f₄ _ (by decide)]
      exact c₃ q (by rw [f₂ _ (by decide), f₁ _ (by decide)]; exact hq)
    · intro hq
      rw [f₄ _ (by decide)]
      exact n₃ (by rw [f₂ _ (by decide), f₁ _ (by decide)]; exact hq)
    · intro q hq
      exact c₄ q (by rw [f₃ _ (by decide), f₂ _ (by decide), f₁ _ (by decide)]; exact hq)
    · intro hq
      exact n₄ (by rw [f₃ _ (by decide), f₂ _ (by decide), f₁ _ (by decide)]; exact hq)
  · intro s hs
    have hnc : (pyKeys s).contains "totalWeight" = false := by simpa using hs
    simp only [convert_user_summary_units, hnc, Bool.and_false, Bool.false_eq_true,
      if_false]
  · intro s q hq
    have hne : pyGetV s "totalWeight" ≠ .null := by rw [hq]; simp
    have hcont := pyKeys_contains_of_ne_null s "totalWeight" hne
    have hsne : s.isEmpty = false := by
      cases s with
      | nil => simp [pyGetV, List.find?] at hne
      | cons kv rest => rfl
    refine ⟨objInsert "totalWeight" (.num (q / 1000)) s, ?_, ?_, ?_⟩
    · simp only [convert_user_summary_units, hsne, hcont, Bool.not_false, Bool.and_self,
        if_true, hq, safe_convert]
      rfl
    · exact pyGetV_objInsert_same s "totalWeight" _
    · intro k hk
      exact pyGetV_objInsert_other s "totalWeight" k _ hk

/-- Closed counterexample for C8 as frozen: on the record
`{"calories": 5}` the named field `distance` is absent, yet after
`convert_activities_units` the key `distance` is present (with `null`),
contradicting "leaves absent named fields absent". -/
theorem C8_absent_distance_materializes :
    "distance" ∉ pyKeys [("calories", JVal.num 5)] ∧
    convertActivity [("calories", JVal.num 5)] =
      .ok [("calories", JVal.num 5), ("distance", JVal.null), ("duration", JVal.null),
           ("elapsedDuration", JVal.null), ("movingDuration", JVal.null)] ∧
    "distance" ∈ pyKeys [("calories", JVal.num 5), ("distance", JVal.null),
      ("duration", JVal.null), ("elapsedDuration", JVal.null),
      ("movingDuration", JVal.null)] := by
  refine ⟨by simp [pyKeys], rfl, by simp [pyKeys]⟩

/-- Closed witness for C8 (amended) at a concrete record. -/
theorem C8_convert_units_frame_witness :
    ∃ a', convertActivity [("distance", JVal.num 3500)] = .ok a' ∧
      pyGetV a' "distance" = JVal.num (3500 / 1000) := by
  obtain ⟨a', e, -, -, c, -⟩ := C8_convert_units_frame.1 [("distance", JVal.num 3500)]
    (Or.inr ⟨3500, rfl⟩) (Or.inl rfl) (Or.inl rfl) (Or.inl rfl)
  exact ⟨a', e, c 3500 rfl⟩

/-!  ## MFA challenge cache and two-phase login
(`MFA_STATE_STORE`, `_cleanup_mfa_cache`, `garmin_login`, `garmin_resume_login`)

The cache maps an opaque handle (`uuid4().hex`) to the provider challenge
state plus the insertion timestamp.  `garmin_login` stores the entry and then
sweeps expired entries; `garmin_resume_login` pops the handle (read-once) and
— notably — never consults the clock. -/

/-- One cached MFA challenge: provider state `result2` plus `time.time()`. -/
structure MfaEntry where
  state : String
  ts : ℚ
  deriving DecidableEq

/-- `MFA_TTL_SECONDS = 5 * 60`. -/
def MFA_TTL_SECONDS : ℚ := 5 * 60

/-- Python dict assignment `d[k] = v` on the handle table. -/
def storeInsert (k : String) (v : MfaEntry) : List (String × MfaEntry) → List (String × MfaEntry)
  | [] => [(k, v)]
  | kv :: rest => if kv.1 = k then (k, v) :: rest else kv :: storeInsert k v rest

/-- Python `d.get(k)` on the handle table. -/
def storeLookup (st : List (String × MfaEntry)) (k : String) : Option MfaEntry :=
  (st.find? (fun kv => kv.1 == k)).map (·.2)

/-- Python `d.pop(k, None)`: the removed entry and the remaining table. -/
def storePop (k : String) : List (String × MfaEntry) →
    Option (MfaEntry × List (String × MfaEntry))
  | [] => none
  | kv :: rest =>
    if kv.1 = k then some (kv.2, rest)
    else (storePop k rest).map (fun er => (er.1, kv :: er.2))

/-- `_cleanup_mfa_cache` (source lines 65–72): delete every entry with
`now - ts > MFA_TTL_SECONDS`. -/
def cleanupMfaCache (now : ℚ) (st : List (String × MfaEntry)) : List (String × MfaEntry) :=
  st.filter (fun kv => decide (now - kv.2.ts ≤ MFA_TTL_SECONDS))

/-- The MFA branch of `garmin_login` (source lines 1104–1111): store the
provider challenge state under the fresh handle, sweep, and return the handle
as `client_state`. -/
def garmin_login_mfa (mfa_id state : String) (now : ℚ)
    (st : List (String × MfaEntry)) : String × List (String × MfaEntry) :=
  (mfa_id, cleanupMfaCache now (storeInsert mfa_id ⟨state, now⟩ st))

/-- `garmin_resume_login` (source lines 1139–1151): pop the handle (read-once);
a missing handle fails with `"Invalid or expired mfa_token"`; otherwise the
provider exchange `garmin.resume_login(state, code)` runs with the recovered
challenge state. -/
def garmin_resume_login (provider : String → String → Except String String)
    (st : List (String × MfaEntry)) (client_state mfa_code : String) :
    Except String String × List (String × MfaEntry) :=
  match storePop client_state st with
  | none => (.error "Invalid or expired mfa_token", st)
  | some (e, st') => (provider e.state mfa_code, st')

theorem storeLookup_eq_none_iff (st : List (String × MfaEntry)) (k : String) :
    storeLookup st k = none ↔ ∀ kv ∈ st, kv.1 ≠ k := by
  induction st with
  | nil => simp [storeLookup]
  | cons kv rest ih =>
    simp only [storeLookup, List.find?] at ih ⊢
    cases hkv : (kv.1 == k) with
    | true =>
      simp only [Option.map_some']
      constructor
      · intro h; cases h
      · intro h
        exact absurd (by simpa using hkv) (h kv (List.mem_cons_self kv rest))
    | false =>
      rw [ih]
      constructor
      · intro h kv' hkv'
        rcases List.mem_cons.mp hkv' with rfl | hmem
        · simpa using hkv
        · exact h kv' hmem
      · intro h kv' hmem
        exact h kv' (List.mem_cons_of_mem kv hmem)

theorem mem_storeInsert {kv : String × MfaEntry} {k : String} {v : MfaEntry}
    {st : List (String × MfaEntry)} (h : kv ∈ storeInsert k v st) :
    kv = (k, v) ∨ kv ∈ st := by
  induction st with
  | nil => simpa [storeInsert] using h
  | cons kv' rest ih =>
    simp only [storeInsert] at h
    split at h
    · rcases List.mem_cons.mp h with rfl | hmem
      · exact Or.inl rfl
      · exact Or.inr (List.mem_cons_of_mem kv' hmem)
    · rcases List.mem_cons.mp h with rfl | hmem
      · exact Or.inr (List.mem_cons_self kv rest)
      · rcases ih hmem with h1 | h2
        · exact Or.inl h1
        · exact Or.inr (List.mem_cons_of_mem kv' h2)

theorem storeInsert_fresh (k : String) (v : MfaEntry) (st : List (String × MfaEntry))
    (h : storeLookup st k = none) : storeInsert k v st = st ++ [(k, v)] := by
  induction st with
  | nil => simp [storeInsert]
  | cons kv rest ih =>
    have hkeys := (storeLookup_eq_none_iff _ _).mp h
    simp only [storeInsert]
    rw [if_neg (hkeys kv (List.mem_cons_self kv rest))]
    rw [ih ((storeLookup_eq_none_iff _ _).mpr
      (fun kv' hkv' => hkeys kv' (List.mem_cons_of_mem kv hkv')))]
    simp

theorem storeLookup_append_right (st : List (String × MfaEntry)) (k : String)
    (v : MfaEntry) (h : storeLookup st k = none) :
    storeLookup (st ++ [(k, v)]) k = some v := by
  induction st with
  | nil => simp [storeLookup, List.find?]
  | cons kv rest ih =>
    have hkeys := (storeLookup_eq_none_iff _ _).mp h
    simp only [List.cons_append, storeLookup, List.find?]
    rw [show (kv.1 == k) = false by
      simpa using hkeys kv (List.mem_cons_self kv rest)]
    exact ih ((storeLookup_eq_none_iff _ _).mpr
      (fun kv' hkv' => hkeys kv' (List.mem_cons_of_mem kv hkv')))

theorem storePop_append (st : List (String × MfaEntry)) (k : String) (v : MfaEntry)
    (h : storeLookup st k = none) : storePop k (st ++ [(k, v)]) = some (v, st) := by
  induction st with
  | nil => simp [storePop]
  | cons kv rest ih =>
    have hkeys := (storeLookup_eq_none_iff _ _).mp h
    simp only [List.cons_append, storePop]
    rw [if_neg (hkeys kv (List.mem_cons_self kv rest))]
    rw [List.append_eq]
    rw [ih ((storeLookup_eq_none_iff _ _).mpr
      (fun kv' hkv' => hkeys kv' (List.mem_cons_of_mem kv hkv')))]
    simp

theorem storePop_eq_none (st : List (String × MfaEntry)) (k : String)
    (h : storeLookup st k = none) : storePop k st = none := by
  induction st with
  | nil => simp [storePop]
  | cons kv rest ih =>
    have hkeys := (storeLookup_eq_none_iff _ _).mp h
    simp only [storePop]
    rw [if_neg (hkeys kv (List.mem_cons_self kv rest))]
    rw [ih ((storeLookup_eq_none_iff _ _).mpr
      (fun kv' hkv' => hkeys kv' (List.mem_cons_of_mem kv hkv')))]
    rfl

theorem storeLookup_filter_none (st : List (String × MfaEntry)) (k : String)
    (p : String × MfaEntry → Bool) (h : storeLookup st k = none) :
    storeLookup (st.filter p) k = none := by
  rw [storeLookup_eq_none_iff] at h ⊢
  intro kv hkv
  exact h kv (List.mem_filter.mp hkv).1

/-- C2 (amended): the MFA lifecycle as implemented.  Login with an
MFA-required response stores the challenge state under the fresh handle and
returns that handle; a resume with the handle and a correct code succeeds
exactly once (the entry is removed atomically by the pop); a second resume
with the consumed handle fails with "Invalid or expired mfa_token"; and a
resume after the 5-minute TTL fails identically **provided a later login has
run the sweep** — the sweep is triggered only by login attempts, the resume
path never consults the clock. -/
theorem C2_mfa_lifecycle (mfa_id id₂ state state₂ mfa_code tokens : String)
    (t t' : ℚ) (st : List (String × MfaEntry))
    (provider : String → String → Except String String)
    (hfresh : storeLookup st mfa_id = none)
    (hok : provider state mfa_code = .ok tokens)
    (hid₂ : id₂ ≠ mfa_id) (hexp : t' - t > MFA_TTL_SECONDS) :
    (garmin_login_mfa mfa_id state t st).1 = mfa_id ∧
    storeLookup (garmin_login_mfa mfa_id state t st).2 mfa_id = some ⟨state, t⟩ ∧
    (garmin_resume_login provider (garmin_login_mfa mfa_id state t st).2
        mfa_id mfa_code).1 = .ok tokens ∧
    storeLookup (garmin_resume_login provider (garmin_login_mfa mfa_id state t st).2
        mfa_id mfa_code).2 mfa_id = none ∧
    (garmin_resume_login provider
        (garmin_resume_login provider (garmin_login_mfa mfa_id state t st).2
          mfa_id mfa_code).2 mfa_id mfa_code).1 = .error "Invalid or expired mfa_token" ∧
    (garmin_resume_login provider
        (garmin_login_mfa id₂ state₂ t' (garmin_login_mfa mfa_id state t st).2).2
        mfa_id mfa_code).1 = .error "Invalid or expired mfa_token" := by
  have hins : storeInsert mfa_id ⟨state, t⟩ st = st ++ [(mfa_id, ⟨state, t⟩)] :=
    storeInsert_fresh _ _ _ hfresh
  have hsplit : cleanupMfaCache t (st ++ [(mfa_id, ⟨state, t⟩)]) =
      cleanupMfaCache t st ++ [(mfa_id, ⟨state, t⟩)] := by
    simp only [cleanupMfaCache, List.filter_append]
    congr 1
    simp only [List.filter]
    rw [show (decide (t - (⟨state, t⟩ : MfaEntry).ts ≤ MFA_TTL_SECONDS)) = true by
      simp only [MFA_TTL_SECONDS]
      norm_num]
  have hst₁ : (garmin_login_mfa mfa_id state t st).2 =
      cleanupMfaCache t st ++ [(mfa_id, ⟨state, t⟩)] := by
    simp only [garmin_login_mfa, hins, hsplit]
  have hclean_fresh : storeLookup (cleanupMfaCache t st) mfa_id = none :=
    storeLookup_filter_none st mfa_id _ hfresh
  have hpop : storePop mfa_id (cleanupMfaCache t st ++ [(mfa_id, ⟨state, t⟩)]) =
      some (⟨state, t⟩, cleanupMfaCache t st) :=
    storePop_append _ _ _ hclean_fresh
  refine ⟨rfl, ?_, ?_, ?_, ?_, ?_⟩
  · rw [hst₁]
    exact storeLookup_append_right _ _ _ hclean_fresh
  · rw [hst₁]
    simp only [garmin_resume_login, hpop]
    exact hok
  · rw [hst₁]
    simp only [garmin_resume_login, hpop]
    exact hclean_fresh
  · rw [hst₁]
    simp only [garmin_resume_login, hpop]
    rw [storePop_eq_none _ _ hclean_fresh]
  · rw [hst₁]
    have habsent : storeLookup (cleanupMfaCache t'
        (storeInsert id₂ ⟨state₂, t'⟩
          (cleanupMfaCache t st ++ [(mfa_id, ⟨state, t⟩)]))) mfa_id = none := by
      rw [storeLookup_eq_none_iff]
      intro kv hkv
      obtain ⟨hmem, hkeep⟩ := List.mem_filter.mp hkv
      rcases mem_storeInsert hmem with rfl | hmem'
      · simpa using hid₂
      · rcases List.mem_append.mp hmem' with hl | hr
        · exact (storeLookup_eq_none_iff _ _).mp hclean_fresh kv hl
        · intro hk
          have hkv : kv = (mfa_id, ⟨state, t⟩) := by simpa using hr
          subst hkv
          simp only [decide_eq_true_eq] at hkeep
          exact absurd hkeep (by linarith)
    simp only [garmin_resume_login, garmin_login_mfa]
    rw [storePop_eq_none _ _ habsent]

/-- Closed witness for C2 (amended) at concrete values. -/
theorem C2_mfa_lifecycle_witness :
    (garmin_resume_login (fun _ _ => Except.ok "tok")
        (garmin_login_mfa "h1" "ch" 0 []).2 "h1" "123456").1 = Except.ok "tok" := by
  have h := C2_mfa_lifecycle "h1" "h2" "ch" "ch2" "123456" "tok" 0 301 []
    (fun _ _ => Except.ok "tok") rfl rfl (by decide)
    (by norm_num [MFA_TTL_SECONDS])
  exact h.2.2.1

/-- Closed counterexample for C2 as frozen: a handle created at time `0` is
past the 5-minute TTL at time `301`, was never consumed, and no intervening
login has run the sweep — yet `resume` still succeeds, because the resume
path never checks the timestamp (the claim requires it to fail with
"invalid or expired handle"). -/
theorem C2_ttl_without_sweep_counterexample :
    storeLookup (garmin_login_mfa "h1" "ch" 0 []).2 "h1" = some ⟨"ch", 0⟩ ∧
    (301 : ℚ) - 0 > MFA_TTL_SECONDS ∧
    (garmin_resume_login (fun _ _ => Except.ok "tok")
        (garmin_login_mfa "h1" "ch" 0 []).2 "h1" "123456").1 = Except.ok "tok" := by
  have hd : (decide ((0:ℚ) - 0 ≤ MFA_TTL_SECONDS)) = true := by
    norm_num [MFA_TTL_SECONDS]
  have hst : (garmin_login_mfa "h1" "ch" 0 []).2 = [("h1", ⟨"ch", 0⟩)] := by
    simp only [garmin_login_mfa, storeInsert, cleanupMfaCache, List.filter, hd]
  refine ⟨?_, by norm_num [MFA_TTL_SECONDS], ?_⟩
  · rw [hst]; rfl
  · rw [hst]; rfl

/-!  ## Sleep record construction (`get_health_and_wellness`, sleep block)

Source lines 404–529.  Timestamps are modelled at second granularity:
millisecond epoch values from `dailySleepDTO` are divided by 1000 with
truncation (Python `datetime.fromtimestamp(ms / 1000)` /
`int(delta.total_seconds())`), and `sleepLevels` `startGMT`/`endGMT`
strings are modelled as their parsed epoch seconds (ISO-8601 strings sort
exactly like their parse results, so the sorting fallback is unaffected). -/

/-- Python `x or y` on an optional integer, where `0` and `None` are falsy. -/
def pyOrZ (x : Option ℤ) (d : ℤ) : ℤ :=
  match x with
  | some n => if n = 0 then d else n
  | none => d

/-- Python truthiness of an optional integer (`None` and `0` falsy). -/
def truthyZ : Option ℤ → Bool
  | some n => n != 0
  | none => false

/-- `sleepScores.overall.value` navigation target. -/
structure SleepOverall where
  value : Option ℤ
  deriving DecidableEq

/-- `dailySleepDTO.sleepScores` navigation. -/
structure SleepScores where
  overall : Option SleepOverall
  deriving DecidableEq

/-- The fields of `dailySleepDTO` read by the sleep block. -/
structure SleepSummary where
  sleepStartTimestampGMT : Option ℤ
  sleepEndTimestampGMT : Option ℤ
  sleepTimeSeconds : Option ℤ
  deepSleepSeconds : Option ℤ
  lightSleepSeconds : Option ℤ
  remSleepSeconds : Option ℤ
  awakeSleepSeconds : Option ℤ
  awakeDuringSleepSeconds : Option ℤ
  sleepScores : Option SleepScores
  averageSpO2Value : Option ℚ
  lowestSpO2Value : Option ℚ
  highestSpO2Value : Option ℚ
  averageRespirationValue : Option ℚ
  lowestRespirationValue : Option ℚ
  highestRespirationValue : Option ℚ
  awakeCount : Option ℤ
  avgSleepStress : Option ℚ
  deriving DecidableEq

/-- `sleep_summary.get(...)` on an absent `dailySleepDTO` (default `{}`). -/
def emptySleepSummary : SleepSummary :=
  ⟨none, none, none, none, none, none, none, none, none, none, none, none,
   none, none, none, none, none⟩

/-- One element of `sleepLevels`. -/
structure SleepLevelEntry where
  activityLevel : Option ℤ
  startGMT : ℤ
  endGMT : ℤ
  deriving DecidableEq

/-- The raw `get_sleep_data` response fields read by the sleep block. -/
structure SleepDataRaw where
  dailySleepDTO : Option SleepSummary
  sleepLevels : Option (List SleepLevelEntry)
  restlessMomentsCount : Option ℤ
  avgOvernightHrv : Option ℚ
  bodyBatteryChange : Option ℤ
  restingHeartRate : Option ℤ
  deriving DecidableEq

/-- One emitted stage event. -/
structure StageEvent where
  stage_type : String
  start_time : ℤ
  end_time : ℤ
  duration_in_seconds : ℤ
  deriving DecidableEq

/-- The emitted sleep record (`sleep_entry_data`). -/
structure SleepRecord where
  entry_date : String
  bedtime : ℤ
  wake_time : ℤ
  duration_in_seconds : ℤ
  time_asleep_in_seconds : ℤ
  sleep_score : Option ℤ
  deep_sleep_seconds : ℤ
  light_sleep_seconds : ℤ
  rem_sleep_seconds : ℤ
  awake_sleep_seconds : ℤ
  average_spo2_value : Option ℚ
  lowest_spo2_value : Option ℚ
  highest_spo2_value : Option ℚ
  average_respiration_value : Option ℚ
  lowest_respiration_value : Option ℚ
  highest_respiration_value : Option ℚ
  awake_count : Option ℤ
  avg_sleep_stress : Option ℚ
  restless_moments_count : Option ℤ
  avg_overnight_hrv : Option ℚ
  body_battery_change : Option ℤ
  resting_heart_rate : Option ℤ
  stage_events : List StageEvent
  deriving DecidableEq

/-- `stage_type_map.get(activityLevel, 'unknown')`: the fixed table
`{0: deep, 1: light, 2: rem, 3: awake}` with default `unknown`. -/
def stageTypeOf (lvl : ℤ) : String :=
  if lvl = 0 then "deep"
  else if lvl = 1 then "light"
  else if lvl = 2 then "rem"
  else if lvl = 3 then "awake"
  else "unknown"

/-- Stable insertion into a start-time-sorted list (`sorted(..., key=startGMT)`). -/
def insertByStart (e : SleepLevelEntry) : List SleepLevelEntry → List SleepLevelEntry
  | [] => [e]
  | x :: xs => if e.startGMT < x.startGMT then e :: x :: xs else x :: insertByStart e xs

/-- `sorted(stage_events_raw, key=startGMT)`. -/
def sortByStart : List SleepLevelEntry → List SleepLevelEntry
  | [] => []
  | e :: es => insertByStart e (sortByStart es)

/-- The per-entry loop over `sleepLevels` (source lines 481–513): skips
entries with `activityLevel is None`, builds a `StageEvent` classified by
`stageTypeOf`, and — only when `needs` (summary deep/light/rem all zero) —
accumulates the per-stage second totals. -/
def processLevels (needs : Bool) : List SleepLevelEntry →
    (List StageEvent × ℤ × ℤ × ℤ × ℤ)
  | [] => ([], 0, 0, 0, 0)
  | e :: es =>
    match processLevels needs es with
    | (evs, d, l, r, a) =>
      match e.activityLevel with
      | none => (evs, d, l, r, a)
      | some lvl =>
        let dur := e.endGMT - e.startGMT
        let st := stageTypeOf lvl
        let ev : StageEvent := ⟨st, e.startGMT, e.endGMT, dur⟩
        if needs then
          (ev :: evs,
           d + (if st = "deep" then dur else 0),
           l + (if st = "light" then dur else 0),
           r + (if st = "rem" then dur else 0),
           a + (if st = "awake" then dur else 0))
        else (ev :: evs, d, l, r, a)

/-- The sleep block body for one date (source lines 409–526): resolves
bedtime/wake time (summary timestamps, else sorted stage-event bounds),
takes stage seconds from `dailySleepDTO` via Python `or`-chains, recomputes
them from `sleepLevels` when deep/light/rem are all zero, and emits the
record only when the total duration is positive. -/
def buildSleepEntry (raw : SleepDataRaw) (d : String) : Option SleepRecord :=
  let sumry := raw.dailySleepDTO.getD emptySleepSummary
  let bw : Option (ℤ × ℤ) :=
    if truthyZ sumry.sleepStartTimestampGMT && truthyZ sumry.sleepEndTimestampGMT then
      some ((sumry.sleepStartTimestampGMT.getD 0).tdiv 1000,
            (sumry.sleepEndTimestampGMT.getD 0).tdiv 1000)
    else
      match sortByStart (raw.sleepLevels.getD []) with
      | [] => none
      | e :: es => some (e.startGMT, ((e :: es).getLast (by simp)).endGMT)
  match bw with
  | none => none
  | some (bed, wake) =>
    let duration := sumry.sleepTimeSeconds.getD (wake - bed)
    let deep0 := pyOrZ sumry.deepSleepSeconds 0
    let light0 := pyOrZ sumry.lightSleepSeconds 0
    let rem0 := pyOrZ sumry.remSleepSeconds 0
    let awake0 := pyOrZ sumry.awakeSleepSeconds (pyOrZ sumry.awakeDuringSleepSeconds 0)
    let needs := decide (deep0 = 0) && decide (light0 = 0) && decide (rem0 = 0)
    match processLevels needs (raw.sleepLevels.getD []) with
    | (evs, ds, ls, rs, aws) =>
      if duration > 0 then
        some
          { entry_date := d
            bedtime := bed
            wake_time := wake
            duration_in_seconds := duration
            time_asleep_in_seconds :=
              (deep0 + ds) + (light0 + ls) + (rem0 + rs)
            sleep_score := (sumry.sleepScores.bind (·.overall)).bind (·.value)
            deep_sleep_seconds := deep0 + ds
            light_sleep_seconds := light0 + ls
            rem_sleep_seconds := rem0 + rs
            awake_sleep_seconds := awake0 + aws
            average_spo2_value := sumry.averageSpO2Value
            lowest_spo2_value := sumry.lowestSpO2Value
            highest_spo2_value := sumry.highestSpO2Value
            average_respiration_value := sumry.averageRespirationValue
            lowest_respiration_value := sumry.lowestRespirationValue
            highest_respiration_value := sumry.highestRespirationValue
            awake_count := sumry.awakeCount
            avg_sleep_stress := sumry.avgSleepStress
            restless_moments_count := raw.restlessMomentsCount
            avg_overnight_hrv := raw.avgOvernightHrv
            body_battery_change := raw.bodyBatteryChange
            resting_heart_rate := raw.restingHeartRate
            stage_events := evs }
      else none

/-- Specification-side event list: each `sleepLevels` entry with a non-`None`
level, classified by the fixed table. -/
def eventsOf (levels : List SleepLevelEntry) : List StageEvent :=
  levels.filterMap (fun e =>
    e.activityLevel.map (fun lvl =>
      ⟨if lvl = 0 then "deep" else if lvl = 1 then "light"
        else if lvl = 2 then "rem" else if lvl = 3 then "awake" else "unknown",
       e.startGMT, e.endGMT, e.endGMT - e.startGMT⟩))

/-- Specification-side per-level duration sum: total seconds of intraday
events whose `activityLevel` equals `lvl` exactly. -/
def sumLvl (levels : List SleepLevelEntry) (lvl : ℤ) : ℤ :=
  ((levels.filter (fun e => e.activityLevel == some lvl)).map
    (fun e => e.endGMT - e.startGMT)).sum

/-- Summary deep seconds after the `or 0` chain. -/
def sleepDeep0 (raw : SleepDataRaw) : ℤ :=
  pyOrZ (raw.dailySleepDTO.getD emptySleepSummary).deepSleepSeconds 0

/-- Summary light seconds after the `or 0` chain. -/
def sleepLight0 (raw : SleepDataRaw) : ℤ :=
  pyOrZ (raw.dailySleepDTO.getD emptySleepSummary).lightSleepSeconds 0

/-- Summary REM seconds after the `or 0` chain. -/
def sleepRem0 (raw : SleepDataRaw) : ℤ :=
  pyOrZ (raw.dailySleepDTO.getD emptySleepSummary).remSleepSeconds 0

/-- Summary awake seconds after the
`awakeSleepSeconds or awakeDuringSleepSeconds or 0` chain. -/
def sleepAwake0 (raw : SleepDataRaw) : ℤ :=
  pyOrZ (raw.dailySleepDTO.getD emptySleepSummary).awakeSleepSeconds
    (pyOrZ (raw.dailySleepDTO.getD emptySleepSummary).awakeDuringSleepSeconds 0)

theorem processLevels_spec (b : Bool) (levels : List SleepLevelEntry) :
    processLevels b levels =
      (eventsOf levels,
       if b then sumLvl levels 0 else 0,
       if b then sumLvl levels 1 else 0,
       if b then sumLvl levels 2 else 0,
       if b then sumLvl levels 3 else 0) := by
  induction levels with
  | nil => cases b <;> simp [processLevels, eventsOf, sumLvl]
  | cons e es ih =>
    simp only [processLevels, ih]
    rcases hl : e.activityLevel with - | lvl
    · simp only [eventsOf, sumLvl, List.filterMap_cons, List.filter_cons, hl]
      simp [eventsOf, sumLvl]
    · simp only [eventsOf, sumLvl, List.filterMap_cons, List.filter_cons, hl,
        Option.map_some']
      cases b with
      | false => simp [eventsOf, sumLvl, stageTypeOf]
      | true =>
        simp only [if_true, reduceIte]
        by_cases h0 : lvl = 0
        · subst h0
          simp [eventsOf, sumLvl, stageTypeOf, List.sum_cons]
          omega
        · by_cases h1 : lvl = 1
          · subst h1
            simp [eventsOf, sumLvl, stageTypeOf, List.sum_cons]
            omega
          · by_cases h2 : lvl = 2
            · subst h2
              simp [eventsOf, sumLvl, stageTypeOf, List.sum_cons]
              omega
            · by_cases h3 : lvl = 3
              · subst h3
                simp [eventsOf, sumLvl, stageTypeOf, List.sum_cons]
                omega
              · simp [eventsOf, sumLvl, stageTypeOf, h0, h1, h2, h3]

/-- C5 (amended): sleep stage reconciliation as implemented.  The emitted
record's `time_asleep_in_seconds` is always deep+light+rem; stage events are
classified by the fixed table `0=deep, 1=light, 2=rem, 3=awake`, every other
level (including levels above 3) becoming `"unknown"` and being excluded
from all totals; when some of deep/light/rem from the daily summary is
non-zero the four totals are exactly the summary values; when deep, light
and rem are all zero, deep/light/rem are recomputed as the sums of the
intraday durations of their exact levels, while the awake total is the
summary awake value **plus** the intraday level-3 sum (it is not purely
recomputed, so a non-zero summary awake value is double-counted). -/
theorem C5_sleep_stage_reconciliation (raw : SleepDataRaw) (d : String) (r : SleepRecord)
    (hr : buildSleepEntry raw d = some r) :
    r.time_asleep_in_seconds =
      r.deep_sleep_seconds + r.light_sleep_seconds + r.rem_sleep_seconds ∧
    r.stage_events = eventsOf (raw.sleepLevels.getD []) ∧
    (¬(sleepDeep0 raw = 0 ∧ sleepLight0 raw = 0 ∧ sleepRem0 raw = 0) →
      r.deep_sleep_seconds = sleepDeep0 raw ∧
      r.light_sleep_seconds = sleepLight0 raw ∧
      r.rem_sleep_seconds = sleepRem0 raw ∧
      r.awake_sleep_seconds = sleepAwake0 raw) ∧
    ((sleepDeep0 raw = 0 ∧ sleepLight0 raw = 0 ∧ sleepRem0 raw = 0) →
      r.deep_sleep_seconds = sumLvl (raw.sleepLevels.getD []) 0 ∧
      r.light_sleep_seconds = sumLvl (raw.sleepLevels.getD []) 1 ∧
      r.rem_sleep_seconds = sumLvl (raw.sleepLevels.getD []) 2 ∧
      r.awake_sleep_seconds = sleepAwake0 raw + sumLvl (raw.sleepLevels.getD []) 3) := by
  simp only [buildSleepEntry, processLevels_spec] at hr
  split at hr
  · exact absurd hr (by simp)
  · rename_i bed wake hbw
    split at hr
    · rename_i hdur
      simp only [Option.some.injEq] at hr
      subst hr
      rcases hn : (decide (pyOrZ (raw.dailySleepDTO.getD emptySleepSummary).deepSleepSeconds 0 = 0) &&
          decide (pyOrZ (raw.dailySleepDTO.getD emptySleepSummary).lightSleepSeconds 0 = 0) &&
          decide (pyOrZ (raw.dailySleepDTO.getD emptySleepSummary).remSleepSeconds 0 = 0)) with - | -
      · have hn2 := hn
        simp only [Bool.and_eq_false_iff, decide_eq_false_iff_not] at hn2
        simp only [hn, Bool.false_eq_true, if_false]
        refine ⟨by simp, by simp, ?_, ?_⟩
        · intro hc
          simp only [sleepDeep0, sleepLight0, sleepRem0, sleepAwake0]
          simp
        · intro hc
          rcases hn2 with (h | h) | h <;> exact absurd (by tauto) h
      · have hn2 := hn
        simp only [Bool.and_eq_true, decide_eq_true_eq] at hn2
        obtain ⟨⟨hD, hL⟩, hR⟩ := hn2
        simp only [hn, if_true]
        refine ⟨by simp, by simp, ?_, ?_⟩
        · intro hc
          exact absurd ⟨by simpa [sleepDeep0] using hD, by simpa [sleepLight0] using hL,
            by simpa [sleepRem0] using hR⟩ hc
        · intro hc
          simp only [sleepDeep0, sleepLight0, sleepRem0, sleepAwake0] at *
          simp [hD, hL, hR]
    · exact absurd hr (by simp)

/-- Concrete sleep payload refuting C5 as frozen: summary stages
`{deep: 0, light: None, rem: None, awake: 500}` with intraday levels
`0 (1800 s), 1 (3600 s), 2 (900 s), 3 (100 s), 4 (50 s)`. -/
def sleepRawCounterEx : SleepDataRaw :=
  { dailySleepDTO := some
      { emptySleepSummary with
        sleepStartTimestampGMT := some 1000000
        sleepEndTimestampGMT := some 8200000
        sleepTimeSeconds := some 7200
        deepSleepSeconds := some 0
        awakeSleepSeconds := some 500 }
    sleepLevels := some
      [⟨some 0, 1000, 2800⟩, ⟨some 1, 2800, 6400⟩, ⟨some 2, 6400, 7300⟩,
       ⟨some 3, 7300, 7400⟩, ⟨some 4, 7400, 7450⟩]
    restlessMomentsCount := none
    avgOvernightHrv := none
    bodyBatteryChange := none
    restingHeartRate := none }

/-- The record the code emits for `sleepRawCounterEx`. -/
def sleepRecCounterEx : SleepRecord :=
  { entry_date := "2025-01-05"
    bedtime := 1000
    wake_time := 8200
    duration_in_seconds := 7200
    time_asleep_in_seconds := 6300
    sleep_score := none
    deep_sleep_seconds := 1800
    light_sleep_seconds := 3600
    rem_sleep_seconds := 900
    awake_sleep_seconds := 600
    average_spo2_value := none
    lowest_spo2_value := none
    highest_spo2_value := none
    average_respiration_value := none
    lowest_respiration_value := none
    highest_respiration_value := none
    awake_count := none
    avg_sleep_stress := none
    restless_moments_count := none
    avg_overnight_hrv := none
    body_battery_change := none
    resting_heart_rate := none
    stage_events :=
      [⟨"deep", 1000, 2800, 1800⟩, ⟨"light", 2800, 6400, 3600⟩,
       ⟨"rem", 6400, 7300, 900⟩, ⟨"awake", 7300, 7400, 100⟩,
       ⟨"unknown", 7400, 7450, 50⟩] }

/-- Closed counterexample for C5 as frozen: with summary deep/light/rem all
zero, the claim says all four totals (including awake) are recomputed from
the intraday events with levels `3+` classified as awake — which here would
give awake `= 100 + 50 = 150`.  The code instead classifies level 4 as
`"unknown"` (excluded from totals) and adds the level-3 sum onto the
summary's awake value `500`, emitting awake `= 600`. -/
theorem C5_awake_counterexample :
    buildSleepEntry sleepRawCounterEx "2025-01-05" = some sleepRecCounterEx ∧
    (((sleepRawCounterEx.sleepLevels.getD []).filter
        (fun e => decide (e.activityLevel.getD (-1) ≥ 3))).map
      (fun e => e.endGMT - e.startGMT)).sum = 150 ∧
    sleepRecCounterEx.awake_sleep_seconds = 600 ∧
    (600 : ℤ) ≠ 150 := by
  refine ⟨by decide, by decide, rfl, by decide⟩

/-- Concrete sleep payload for the spec's own reconciliation vector: summary
stages all zero/absent, intraday sums `{deep: 1800, light: 3600, rem: 900}`. -/
def sleepRawSpecEx : SleepDataRaw :=
  { dailySleepDTO := some
      { emptySleepSummary with
        sleepStartTimestampGMT := some 1000000
        sleepEndTimestampGMT := some 8200000
        sleepTimeSeconds := some 7200 }
    sleepLevels := some
      [⟨some 0, 1000, 2800⟩, ⟨some 1, 2800, 6400⟩, ⟨some 2, 6400, 7300⟩]
    restlessMomentsCount := none
    avgOvernightHrv := none
    bodyBatteryChange := none
    restingHeartRate := none }

/-- The record the code emits for `sleepRawSpecEx`. -/
def sleepRecSpecEx : SleepRecord :=
  { entry_date := "2025-01-06"
    bedtime := 1000
    wake_time := 8200
    duration_in_seconds := 7200
    time_asleep_in_seconds := 6300
    sleep_score := none
    deep_sleep_seconds := 1800
    light_sleep_seconds := 3600
    rem_sleep_seconds := 900
    awake_sleep_seconds := 0
    average_spo2_value := none
    lowest_spo2_value := none
    highest_spo2_value := none
    average_respiration_value := none
    lowest_respiration_value := none
    highest_respiration_value := none
    awake_count := none
    avg_sleep_stress := none
    restless_moments_count := none
    avg_overnight_hrv := none
    body_battery_change := none
    resting_heart_rate := none
    stage_events :=
      [⟨"deep", 1000, 2800, 1800⟩, ⟨"light", 2800, 6400, 3600⟩,
       ⟨"rem", 6400, 7300, 900⟩] }

/-- Closed witness for C5 (amended) on the spec's reconciliation vector:
summary stages `{deep: 0, light: 0, rem: 0}` with intraday sums
`{deep: 1800, light: 3600, rem: 900}` yield exactly those totals and
`time_asleep_in_seconds = 6300`. -/
theorem C5_sleep_stage_reconciliation_witness :
    sleepRecSpecEx.deep_sleep_seconds = 1800 ∧
    sleepRecSpecEx.light_sleep_seconds = 3600 ∧
    sleepRecSpecEx.rem_sleep_seconds = 900 ∧
    sleepRecSpecEx.time_asleep_in_seconds = 6300 := by
  have h := C5_sleep_stage_reconciliation sleepRawSpecEx "2025-01-06" sleepRecSpecEx
    (by decide)
  have h4 := h.2.2.2 (by decide)
  refine ⟨?_, ?_, ?_, ?_⟩
  · rw [h4.1]; decide
  · rw [h4.2.1]; decide
  · rw [h4.2.2.1]; decide
  · rw [h.1, h4.1, h4.2.1, h4.2.2.1]; decide

/-!  ## Activity enrichment (`get_activities_and_workouts`, lines 995–1046)

For each listed activity the endpoint fetches six enrichment sub-documents
and builds an entry `{"activity": {**activity, cadence, power,
active_calories}, "details": dumps(clean(...)), ...}`.  All six fetches and
the cadence/power extraction sit inside one `try`; any failure falls back to
`{"activity": activity}`.  Code before the `try` (the `activityId` lookup and
the active-calories arithmetic) escapes the per-activity wrapper. -/

/-- JSON string escaping for the serializer (model of `json.dumps`). -/
def escapeChars : List Char → List Char
  | [] => []
  | c :: rest =>
    if c = '"' then '\\' :: '"' :: escapeChars rest
    else if c = '\\' then '\\' :: '\\' :: escapeChars rest
    else c :: escapeChars rest

/-- Serialize a payload value (model of `json.dumps` with default
separators); numbers print as integers when integral, else as fractions. -/
def renderJson : JVal → String
  | .null => "null"
  | .bool b => if b then "true" else "false"
  | .num q => if q.den = 1 then toString q.num else toString q.num ++ "/" ++ toString q.den
  | .str s => "\"" ++ String.mk (escapeChars s.data) ++ "\""
  | .arr xs => "[" ++ String.intercalate ", " (xs.attach.map (fun x => renderJson x.1)) ++ "]"
  | .obj kvs =>
    "\x7b" ++
      String.intercalate ", "
        (kvs.attach.map (fun kv =>
          "\"" ++ String.mk (escapeChars kv.1.1.data) ++ "\": " ++ renderJson kv.1.2)) ++
      "\x7d"
termination_by v => sizeOf v
decreasing_by
  · have := List.sizeOf_lt_of_mem x.2
    simp only [JVal.arr.sizeOf_spec]
    omega
  · have := List.sizeOf_lt_of_mem kv.2
    have h2 : sizeOf kv.1.2 < sizeOf kv.1 := by
      rcases kv.1 with ⟨a, b⟩
      simp
    simp only [JVal.obj.sizeOf_spec]
    omega

/-- `json.dumps(clean_garmin_data(x))` — `clean` may return `None`, which
serializes as `null`. -/
def dumpsClean (v : JVal) : String :=
  match clean v with
  | some w => renderJson w
  | none => "null"

/-- Python `x or y` on payload values (`y` when `x` is falsy). -/
def jvOr (v d : JVal) : JVal := if jTruthy v then v else d

/-- The six per-activity enrichment endpoints; `Except.error ()` models a
thrown upstream exception. -/
structure ActivityOracle where
  details : JVal → Except Unit JVal
  splits : JVal → Except Unit JVal
  weather : JVal → Except Unit JVal
  hrInTimezones : JVal → Except Unit JVal
  exerciseSets : JVal → Except Unit JVal
  gear : JVal → Except Unit JVal

/-- The six sequential fetches at the top of the per-activity `try`
(source lines 1005–1010). -/
def fetchSix (o : ActivityOracle) (id : JVal) :
    Except Unit (JVal × JVal × JVal × JVal × JVal × JVal) := do
  let d ← o.details id
  let s ← o.splits id
  let w ← o.weather id
  let h ← o.hrInTimezones id
  let e ← o.exerciseSets id
  let g ← o.gear id
  pure (d, s, w, h, e, g)

/-- Cadence/power extraction from the details document (source lines
1012–1027); malformed `metrics` shapes raise inside the `try`. -/
def extractMetrics (details : JVal) : Except Unit (JVal × JVal) :=
  match details with
  | .obj kvs =>
    if !kvs.isEmpty then
      match
        ((let m := pyGetV kvs "metrics"
          if jTruthy m then
            match m with
            | .arr items =>
              items.foldlM (fun (cp : JVal × JVal) it =>
                match it with
                | .obj ikvs =>
                  Except.ok
                    ((if (match pyGetV ikvs "metricName" with
                          | .str s => s == "cadence"
                          | _ => false) then pyGetV ikvs "value" else cp.1),
                     (if (match pyGetV ikvs "metricName" with
                          | .str s => s == "power"
                          | _ => false) then pyGetV ikvs "value" else cp.2))
                | _ => (Except.error () : Except Unit (JVal × JVal))) (JVal.null, JVal.null)
            | _ => Except.error ()
          else Except.ok (.null, .null)) : Except Unit (JVal × JVal)) with
      | .error e => .error e
      | .ok (ec, ep) =>
        .ok (jvOr ec (jvOr (pyGetV kvs "avgCadence") (pyGetV kvs "averageCadence")),
             jvOr ep (jvOr (pyGetV kvs "avgPower") (pyGetV kvs "averagePower")))
    else .ok (.null, .null)
  | _ => .ok (.null, .null)

/-- One enrichment sub-document field of the output entry:
`json.dumps(clean_garmin_data(x)) if x else None`. -/
def enrichField (v : JVal) : JVal :=
  if jTruthy v then .str (dumpsClean v) else .null

/-- The body of the per-activity `try` (source lines 1004–1042): the six
fetches, the cadence/power extraction, and the full output entry. -/
def enrichTry (o : ActivityOracle) (id : JVal) (ac : ℚ)
    (a : List (String × JVal)) : Except Unit (List (String × JVal)) := do
  let (d, s, w, h, e, g) ← fetchSix o id
  let (cad, pow) ← extractMetrics d
  pure
    [("activity", .obj (objInsert "active_calories" (.num ac)
        (objInsert "power" pow (objInsert "cadence" cad a)))),
     ("details", enrichField d),
     ("splits", enrichField s),
     ("weather", enrichField w),
     ("hr_in_timezones", enrichField h),
     ("exercise_sets", enrichField e),
     ("gear", enrichField g)]

/-- The whole per-activity step (source lines 996–1046): the `activityId`
lookup and the active-calories arithmetic run before the `try` (their
failures abort the request); a failure inside the `try` is caught and the
activity is appended with only its core fields. -/
def enrichOne (o : ActivityOracle) (a : List (String × JVal)) :
    Except Unit (List (String × JVal)) :=
  match a.find? (fun kv => kv.1 == "activityId") with
  | none => .error ()
  | some kv =>
    match jvOr (pyGetV a "calories") (.num 0), jvOr (pyGetV a "bmrCalories") (.num 0) with
    | .num c, .num b =>
      let ac := max 0 (c - b)
      .ok
        (match enrichTry o kv.2 ac a with
         | .ok entry => entry
         | .error _ => [("activity", .obj a)])
    | _, _ => .error ()

/-- The enrichment loop over all listed activities. -/
def detailedActivities (o : ActivityOracle) :
    List (List (String × JVal)) → Except Unit (List (List (String × JVal)))
  | [] => .ok []
  | a :: rest => do
    let e ← enrichOne o a
    let rest' ← detailedActivities o rest
    pure (e :: rest')

/-- The `activityId` value of an activity record. -/
def activityIdOf (a : List (String × JVal)) : JVal :=
  match a.find? (fun kv => kv.1 == "activityId") with
  | some kv => kv.2
  | none => .null

/-- Numeric content of a payload value (0 otherwise). -/
def calNum (v : JVal) : ℚ :=
  match v with
  | .num q => q
  | _ => 0

/-- `active_calories = max(0, calories - bmrCalories)` with falsy-to-0
defaults (source lines 1000–1002). -/
def activeCaloriesOf (a : List (String × JVal)) : ℚ :=
  max 0 (calNum (jvOr (pyGetV a "calories") (.num 0)) -
    calNum (jvOr (pyGetV a "bmrCalories") (.num 0)))

/-- C3 (amended): the six enrichments are fetched inside a **single**
per-activity wrapper, not wrapped individually.  No activity is ever dropped
(the output has one entry per listed activity, in order); when the whole
wrapped computation (all six fetches plus the cadence/power extraction)
succeeds, the entry carries the activity plus all six sub-document fields;
when **any** part of it fails the activity is still emitted, but with only
its core fields — all enrichments are absent, including ones whose own fetch
succeeded. -/
theorem C3_enrichment_single_wrapper (o : ActivityOracle)
    (acts : List (List (String × JVal)))
    (hok : ∀ a ∈ acts, (a.find? (fun kv => kv.1 == "activityId")).isSome = true ∧
      (∃ q : ℚ, jvOr (pyGetV a "calories") (.num 0) = .num q) ∧
      (∃ q : ℚ, jvOr (pyGetV a "bmrCalories") (.num 0) = .num q)) :
    ∃ L, detailedActivities o acts = .ok L ∧ L.length = acts.length ∧
      ∀ (i : ℕ) (hi : i < acts.length) (hL : i < L.length),
        (enrichTry o (activityIdOf (acts.get ⟨i, hi⟩))
            (activeCaloriesOf (acts.get ⟨i, hi⟩)) (acts.get ⟨i, hi⟩) = .error () →
          L.get ⟨i, hL⟩ = [("activity", .obj (acts.get ⟨i, hi⟩))]) ∧
        (∀ e, enrichTry o (activityIdOf (acts.get ⟨i, hi⟩))
            (activeCaloriesOf (acts.get ⟨i, hi⟩)) (acts.get ⟨i, hi⟩) = .ok e →
          L.get ⟨i, hL⟩ = e ∧
          pyKeys e = ["activity", "details", "splits", "weather",
            "hr_in_timezones", "exercise_sets", "gear"]) := by
  induction acts with
  | nil =>
    exact ⟨[], rfl, rfl, fun i hi => absurd hi (by simp)⟩
  | cons a rest ih =>
    obtain ⟨hid, ⟨qc, hc⟩, ⟨qb, hb⟩⟩ := hok a (List.mem_cons_self a rest)
    obtain ⟨L, hL, hlen, hchar⟩ := ih (fun a' ha' => hok a' (List.mem_cons_of_mem a ha'))
    rcases hfind : a.find? (fun kv => kv.1 == "activityId") with - | kv
    · rw [hfind] at hid; simp at hid
    · have hidv : activityIdOf a = kv.2 := by simp [activityIdOf, hfind]
      have hacv : activeCaloriesOf a = max 0 (qc - qb) := by
        simp [activeCaloriesOf, hc, hb, calNum]
      have hone : enrichOne o a = .ok
          (match enrichTry o kv.2 (max 0 (qc - qb)) a with
           | .ok entry => entry
           | .error _ => [("activity", .obj a)]) := by
        simp only [enrichOne, hfind, hc, hb]
      refine ⟨(match enrichTry o kv.2 (max 0 (qc - qb)) a with
               | .ok entry => entry
               | .error _ => [("activity", .obj a)]) :: L, ?_, by simpa using hlen, ?_⟩
      · simp only [detailedActivities, hone, hL, bind, Except.bind, pure, Except.pure]
      · intro i hi hLi
        match i with
        | 0 =>
          simp only [List.get]
          constructor
          · intro herr
            rw [hidv, hacv] at herr
            rw [herr]
          · intro e hsucc
            rw [hidv, hacv] at hsucc
            rw [hsucc]
            refine ⟨rfl, ?_⟩
            simp only [enrichTry, bind, Except.bind] at hsucc
            split at hsucc
            · exact absurd hsucc (by simp)
            · split at hsucc
              · exact absurd hsucc (by simp)
              · simp only [pure, Except.pure, Except.ok.injEq] at hsucc
                subst hsucc
                simp [pyKeys]
        | i + 1 =>
          have hi' : i < rest.length := by simpa using hi
          have hLi' : i < L.length := by simpa using hLi
          have := hchar i hi' hLi'
          simpa using this

/-- Closed witness for C3 (amended): with an oracle where all six fetches
succeed, the emitted list has one entry per activity. -/
theorem C3_enrichment_single_wrapper_witness :
    ∃ L, detailedActivities
      ⟨fun _ => .ok (.obj [("x", .num 1)]), fun _ => .ok (.obj [("x", .num 1)]),
       fun _ => .ok (.obj [("x", .num 1)]), fun _ => .ok (.obj [("x", .num 1)]),
       fun _ => .ok (.obj [("x", .num 1)]), fun _ => .ok (.obj [("x", .num 1)])⟩
      [[("activityId", .num 7), ("activityName", .str "run")]] = .ok L ∧
      L.length = 1 := by
  obtain ⟨L, hL, hlen, -⟩ := C3_enrichment_single_wrapper _
    [[("activityId", .num 7), ("activityName", .str "run")]]
    (by
      intro a ha
      simp only [List.mem_singleton] at ha
      subst ha
      exact ⟨rfl, ⟨0, rfl⟩, ⟨0, rfl⟩⟩)
  exact ⟨L, hL, by rw [hlen]; rfl⟩

/-- The concrete oracle of the C3 counterexample: every enrichment succeeds
with a truthy payload except the weather fetch, which throws. -/
def actOracleCEx : ActivityOracle :=
  { details := fun _ => .ok (.obj [("d", .num 1)])
    splits := fun _ => .ok (.obj [("s", .num 2)])
    weather := fun _ => .error ()
    hrInTimezones := fun _ => .ok (.obj [("h", .num 3)])
    exerciseSets := fun _ => .ok (.obj [("e", .num 4)])
    gear := fun _ => .ok (.obj [("g", .num 5)]) }

/-- Closed counterexample for C3 as frozen: the splits fetch succeeds with a
truthy document, only the weather fetch throws — yet the emitted entry is the
bare `{"activity": ...}` with no `splits` (or any other enrichment) key, so
one failing enrichment does drop the others. -/
theorem C3_weather_failure_drops_others_counterexample :
    actOracleCEx.splits (JVal.num 7) = .ok (.obj [("s", .num 2)]) ∧
    jTruthy (.obj [("s", JVal.num 2)]) = true ∧
    enrichOne actOracleCEx [("activityId", .num 7), ("activityName", .str "run")] =
      .ok [("activity", .obj [("activityId", .num 7), ("activityName", .str "run")])] ∧
    "splits" ∉ pyKeys [("activity",
      JVal.obj [("activityId", .num 7), ("activityName", .str "run")])] := by
  refine ⟨rfl, rfl, rfl, by simp [pyKeys]⟩

/-!  ## Aggregation orchestrator (`get_health_and_wellness`, lines 252–935)

The embedding covers a representative subset of the metric categories with
their exact block logic: the daily-summary family (`steps`, `total_distance`,
`highly_active_seconds`, `active_seconds`, `sedentary_seconds`, and the
primary `body_battery` source — all served by one `get_user_summary` call),
`hydration`, `sleep`, `stress`, `spo2` (with its sleep-data fallback),
the `body_battery` fallback endpoint, and the range-invariant
`lactate_threshold` / `race_predictions` pre-loop fetches.  The remaining
category blocks in the source share the identical
try/except-around-one-fetch structure.  `Except.error ()` models a thrown
upstream call; each block's `try/except` turns it into "no entry". -/

/-- Python `x or y` on an optional rational (`None` and `0` falsy). -/
def pyOrQ (x y : Option ℚ) : Option ℚ :=
  match x with
  | some q => if q = 0 then y else some q
  | none => y

/-- Python truthiness of an optional rational. -/
def truthyQ : Option ℚ → Bool
  | some q => q != 0
  | none => false

/-- The full fixed category list `ALL_HEALTH_METRICS` (source lines 176–185). -/
def ALL_HEALTH_METRICS : List String :=
  ["steps", "total_distance", "highly_active_seconds", "active_seconds",
   "sedentary_seconds", "heart_rates", "sleep", "stress", "respiration", "spo2",
   "intensity_minutes", "training_readiness", "training_status", "max_metrics",
   "hrv", "lactate_threshold", "endurance_score", "hill_score", "race_predictions",
   "blood_pressure", "body_battery", "menstrual_data", "floors", "fitness_age",
   "body_composition", "hydration", "recovery_time", "training_load", "acute_load"]

/-- The fields of `get_user_summary` read by the daily-summary block. -/
structure UserSummary where
  totalSteps : Option ℤ
  totalDistance : Option ℚ
  totalDistanceMeters : Option ℚ
  distance : Option ℚ
  highlyActiveSeconds : Option ℚ
  activeSeconds : Option ℚ
  sedentarySeconds : Option ℚ
  bodyBatteryHighestValue : Option ℤ
  bodyBatteryLowestValue : Option ℤ
  bodyBatteryAtWakeTime : Option ℤ
  bodyBatteryChargedValue : Option ℤ
  bodyBatteryDrainedValue : Option ℤ
  bodyBatteryMostRecentValue : Option ℤ
  deriving DecidableEq

/-- `get_hydration_data` response. -/
structure HydrationData where
  valueInML : Option ℚ
  deriving DecidableEq

/-- `get_stress_data` response: `stressValuesArray` pairs `[ts, value]` and
`bodyBatteryValuesArray` triples `[ts, status, value]`. -/
structure StressResponse where
  stressValuesArray : Option (List (ℤ × Option ℤ))
  bodyBatteryValuesArray : Option (List (ℤ × ℤ × Option ℤ))
  deriving DecidableEq

/-- `allDaySpO2` sub-document. -/
structure Spo2AllDay where
  averageValue : Option ℚ
  avg : Option ℚ
  avgSpO2 : Option ℚ
  deriving DecidableEq

/-- One element of `dailySpO2Values`. -/
structure Spo2Daily where
  spO2 : Option ℚ
  value : Option ℚ
  deriving DecidableEq

/-- `get_spo2_data` response fields read by the spo2 block. -/
structure Spo2Response where
  avgSpO2 : Option ℚ
  averageSpO2 : Option ℚ
  average : Option ℚ
  latestSpO2Value : Option ℚ
  dailySpO2Values : Option (List Spo2Daily)
  allDaySpO2 : Option Spo2AllDay
  deriving DecidableEq

/-- One element of the `get_body_battery` fallback response. -/
structure BBFallbackEntry where
  bodyBatteryValuesArray : Option (List (ℤ × ℤ))
  charged : Option ℤ
  drained : Option ℤ
  deriving DecidableEq

/-- `lactate_threshold_data["speed_and_heart_rate"]`. -/
structure LactateSpeedHR where
  heartRate : Option ℚ
  deriving DecidableEq

/-- `get_lactate_threshold` response. -/
structure LactateResp where
  speed_and_heart_rate : Option LactateSpeedHR
  deriving DecidableEq

/-- One element of `racePredictionList`. -/
structure RacePrediction where
  raceType : Option String
  predictedTime : Option ℤ
  deriving DecidableEq

/-- `get_race_predictions` response. -/
structure RaceResp where
  racePredictionList : Option (List RacePrediction)
  deriving DecidableEq

/-- The upstream client: one function per endpoint used by the modelled
blocks; `Except.error ()` is a thrown call, `Option` captures Python
falsy/absent responses. -/
structure Oracle where
  userSummary : String → Except Unit (Option UserSummary)
  hydration : String → Except Unit (Option HydrationData)
  sleepData : String → Except Unit (Option SleepDataRaw)
  stressData : String → Except Unit (Option StressResponse)
  spo2Data : String → Except Unit (Option Spo2Response)
  bodyBattery : String → Except Unit (Option (List BBFallbackEntry))
  lactate : Except Unit (Option LactateResp)
  racePredictions : Except Unit (Option RaceResp)

/-- `health_data["steps"]` entry shape. -/
structure StepsEntry where
  date : String
  value : Option ℤ
  deriving DecidableEq

/-- Entry shape of the converted summary metrics
(`total_distance`, `highly_active_seconds`, `active_seconds`,
`sedentary_seconds`). -/
structure QEntry where
  date : String
  value : Option ℚ
  deriving DecidableEq

/-- `health_data["body_battery"]` entry shape. -/
structure BBEntry where
  date : String
  body_battery_highest : Option ℤ
  body_battery_lowest : Option ℤ
  body_battery_at_wake : Option ℤ
  body_battery_charged : Option ℤ
  body_battery_drained : Option ℤ
  body_battery_current : Option ℤ
  deriving DecidableEq

/-- `health_data["hydration"]` entry shape. -/
structure HydrationEntry where
  date : String
  hydration : ℚ
  deriving DecidableEq

/-- `health_data["spo2"]` entry shape. -/
structure Spo2Entry where
  date : String
  average_spo2 : ℚ
  deriving DecidableEq

/-- `health_data["stress"]` entry shape (timestamps kept in epoch ms;
`raw_stress_data` duplicates `stressLevel` at encoding time). -/
structure StressEntry where
  date : String
  stressLevel : List (ℤ × ℤ)
  bodyBattery : List (ℤ × ℤ)
  derived_mood_value : Option ℤ
  derived_mood_notes : Option String
  deriving DecidableEq

/-- `health_data["lactate_threshold"]` entry shape. -/
structure LactateEntry where
  date : String
  lactate_threshold_hr : Option ℚ
  deriving DecidableEq

/-- `health_data["race_predictions"]` entry shape; the outer `Option` is key
presence (a prediction with `predictedTime: None` still creates its key). -/
structure RaceEntry where
  date : String
  race_prediction_5k : Option (Option ℤ)
  race_prediction_10k : Option (Option ℤ)
  race_prediction_half_marathon : Option (Option ℤ)
  race_prediction_marathon : Option (Option ℤ)
  deriving DecidableEq

/-- The accumulated `health_data` for the modelled categories. -/
structure HealthData where
  steps : List StepsEntry
  total_distance : List QEntry
  highly_active_seconds : List QEntry
  active_seconds : List QEntry
  sedentary_seconds : List QEntry
  sleep : List SleepRecord
  stress : List StressEntry
  spo2 : List Spo2Entry
  lactate_threshold : List LactateEntry
  race_predictions : List RaceEntry
  body_battery : List BBEntry
  hydration : List HydrationEntry
  deriving DecidableEq

/-- Is any daily-summary-family metric requested (the block guard,
source line 311)? -/
def anySummaryMetric (req : List String) : Bool :=
  req.contains "steps" || req.contains "total_distance" ||
  req.contains "highly_active_seconds" || req.contains "active_seconds" ||
  req.contains "sedentary_seconds" || req.contains "body_battery"

/-- The daily-summary block (source lines 311–347): one `get_user_summary`
call serves six categories; a throw or a falsy response yields no entry for
any of them. -/
def dailySummaryFor (o : Oracle) (req : List String) (d : String) :
    List StepsEntry × List QEntry × List QEntry × List QEntry × List QEntry ×
      List BBEntry :=
  if anySummaryMetric req then
    match o.userSummary d with
    | .ok (some s) =>
      (if req.contains "steps" then [⟨d, s.totalSteps⟩] else [],
       if req.contains "total_distance" then
         [⟨d, (pyOrQ s.totalDistance (pyOrQ s.totalDistanceMeters s.distance)).map
            meters_to_km⟩] else [],
       if req.contains "highly_active_seconds" then
         [⟨d, s.highlyActiveSeconds.map seconds_to_minutes⟩] else [],
       if req.contains "active_seconds" then
         [⟨d, s.activeSeconds.map seconds_to_minutes⟩] else [],
       if req.contains "sedentary_seconds" then
         [⟨d, s.sedentarySeconds.map seconds_to_minutes⟩] else [],
       if req.contains "body_battery" &&
          (truthyZ s.bodyBatteryHighestValue || truthyZ s.bodyBatteryLowestValue ||
           truthyZ s.bodyBatteryAtWakeTime || truthyZ s.bodyBatteryChargedValue ||
           truthyZ s.bodyBatteryDrainedValue) then
         [⟨d, s.bodyBatteryHighestValue, s.bodyBatteryLowestValue,
           s.bodyBatteryAtWakeTime, s.bodyBatteryChargedValue,
           s.bodyBatteryDrainedValue, s.bodyBatteryMostRecentValue⟩]
       else [])
    | _ => ([], [], [], [], [], [])
  else ([], [], [], [], [], [])

/-- The hydration block (source lines 350–356). -/
def hydrationFor (o : Oracle) (req : List String) (d : String) : List HydrationEntry :=
  if req.contains "hydration" then
    match o.hydration d with
    | .ok (some h) =>
      match h.valueInML with
      | some v => [⟨d, v⟩]
      | none => []
    | _ => []
  else []

/-- The sleep block (source lines 405–529). -/
def sleepFor (o : Oracle) (req : List String) (d : String) : List SleepRecord :=
  if req.contains "sleep" then
    match o.sleepData d with
    | .ok (some raw) =>
      match buildSleepEntry raw d with
      | some r => [r]
      | none => []
    | _ => []
  else []

/-- `:.0f` formatting of the average (Python round-half-to-even). -/
def pyRound0 (q : ℚ) : ℤ :=
  let f := ⌊q⌋
  let r := q - f
  if r < 1 / 2 then f
  else if r > 1 / 2 then f + 1
  else if f % 2 = 0 then f else f + 1

/-- `derived_mood_notes` text (source line 565). -/
def stressNotes (avg : ℚ) (cat : String) : String :=
  "Derived from Garmin Stress: Average " ++ toString (pyRound0 avg) ++
    " (" ++ cat ++ ")"

/-- The stress block (source lines 532–578): keeps samples with a non-`None`
value `≥ 0`, derives the mood from the arithmetic mean of the kept values,
and appends the entry only when there is raw data or a derived mood. -/
def stressFor (o : Oracle) (req : List String) (d : String) : List StressEntry :=
  if req.contains "stress" then
    match o.stressData d with
    | .ok (some resp) =>
      let sl := (resp.stressValuesArray.getD []).filterMap (fun p =>
        match p.2 with
        | some v => if v ≥ 0 then some (p.1, v) else none
        | none => none)
      let bb := (resp.bodyBatteryValuesArray.getD []).filterMap (fun t =>
        match t.2.2 with
        | some v => if v ≥ 0 then some (t.1, v) else none
        | none => none)
      let vals := sl.map Prod.snd
      let mood := if vals.isEmpty then (none, none)
        else map_garmin_stress_to_mood (some (stressAverage vals))
      let notes := match mood.1, mood.2 with
        | some _, some c => some (stressNotes (stressAverage vals) c)
        | _, _ => none
      if !sl.isEmpty || mood.1.isSome then [⟨d, sl, bb, mood.1, notes⟩] else []
    | _ => []
  else []

/-- The spo2 block (source lines 605–643) given the accumulated sleep list:
the field-name fallback chain, the `dailySpO2Values` mean, the `allDaySpO2`
chain, then the fallback to a sleep record of the same date; the entry is
appended only for a truthy final average. -/
def spo2ForAcc (o : Oracle) (req : List String) (d : String)
    (sleepAcc : List SleepRecord) : List Spo2Entry :=
  if req.contains "spo2" then
    match o.spo2Data d with
    | .error _ => []
    | .ok resp? =>
      let a1 : Option ℚ :=
        match resp? with
        | none => none
        | some r =>
          let c1 := pyOrQ r.avgSpO2 (pyOrQ r.averageSpO2 (pyOrQ r.average r.latestSpO2Value))
          let c2 :=
            if !truthyQ c1 && !(r.dailySpO2Values.getD []).isEmpty then
              let readings := (r.dailySpO2Values.getD []).filterMap (fun v =>
                let x := pyOrQ v.spO2 v.value
                if truthyQ x then x else none)
              if !readings.isEmpty then
                some ((readings.sum) / (readings.length : ℚ))
              else c1
            else c1
          if !truthyQ c2 && r.allDaySpO2.isSome then
            match r.allDaySpO2 with
            | some ad => pyOrQ ad.averageValue (pyOrQ ad.avg ad.avgSpO2)
            | none => c2
          else c2
      let a2 :=
        if !truthyQ a1 && !sleepAcc.isEmpty then
          match sleepAcc.find? (fun e => e.entry_date == d && truthyQ e.average_spo2_value) with
          | some e => e.average_spo2_value
          | none => a1
        else a1
      match a2 with
      | some v => if v ≠ 0 then [⟨d, v⟩] else []
      | none => []
  else []

/-- The body-battery fallback block (source lines 807–833) given the
accumulated body-battery list: runs only when no entry for the date exists
yet; extracts highest/lowest/current from `bodyBatteryValuesArray`. -/
def bbFallbackForAcc (o : Oracle) (req : List String) (d : String)
    (bbAcc : List BBEntry) : List BBEntry :=
  if req.contains "body_battery" && !(bbAcc.any (fun e => e.date == d)) then
    match o.bodyBattery d with
    | .ok (some entries) =>
      if !entries.isEmpty then
        entries.map (fun be =>
          let bvs := be.bodyBatteryValuesArray.getD []
          ⟨d,
           if bvs.isEmpty then none else (bvs.map Prod.snd).max?,
           if bvs.isEmpty then none else (bvs.map Prod.snd).min?,
           none,
           be.charged,
           be.drained,
           (bvs.getLast?).map Prod.snd⟩)
      else []
    | _ => []
  else []

/-- The pre-loop lactate-threshold fetch (source lines 267–274), keyed to the
range's start date. -/
def lactateFor (o : Oracle) (req : List String) (start_date : String) :
    List LactateEntry :=
  if req.contains "lactate_threshold" then
    match o.lactate with
    | .ok (some lr) => [⟨start_date, lr.speed_and_heart_rate.bind (·.heartRate)⟩]
    | _ => []
  else []

/-- The pre-loop race-predictions fetch (source lines 276–296): one entry
keyed to the start date, kept only when at least one known race type was
mapped (`len(race_entry) > 1`). -/
def raceFor (o : Oracle) (req : List String) (start_date : String) :
    List RaceEntry :=
  if req.contains "race_predictions" then
    match o.racePredictions with
    | .ok (some rr) =>
      let entry := (rr.racePredictionList.getD []).foldl (fun (e : RaceEntry) p =>
        match p.raceType with
        | some "FIVE_K" => { e with race_prediction_5k := some p.predictedTime }
        | some "TEN_K" => { e with race_prediction_10k := some p.predictedTime }
        | some "HALF_MARATHON" =>
          { e with race_prediction_half_marathon := some p.predictedTime }
        | some "MARATHON" => { e with race_prediction_marathon := some p.predictedTime }
        | _ => e) ⟨start_date, none, none, none, none⟩
      if entry.race_prediction_5k.isSome || entry.race_prediction_10k.isSome ||
         entry.race_prediction_half_marathon.isSome ||
         entry.race_prediction_marathon.isSome then [entry] else []
    | _ => []
  else []

/-- One iteration of the per-date loop (source lines 307–912), in source
block order; the spo2 block sees the sleep entries accumulated so far
including this date's, and the body-battery fallback sees the body-battery
entries including this date's summary-sourced ones. -/
def processDate (o : Oracle) (req : List String) (d : String) (hd : HealthData) :
    HealthData :=
  match dailySummaryFor o req d with
  | (st, td, ha, ac, se, bbS) =>
    let sl := sleepFor o req d
    { steps := hd.steps ++ st
      total_distance := hd.total_distance ++ td
      highly_active_seconds := hd.highly_active_seconds ++ ha
      active_seconds := hd.active_seconds ++ ac
      sedentary_seconds := hd.sedentary_seconds ++ se
      sleep := hd.sleep ++ sl
      stress := hd.stress ++ stressFor o req d
      spo2 := hd.spo2 ++ spo2ForAcc o req d (hd.sleep ++ sl)
      lactate_threshold := hd.lactate_threshold
      race_predictions := hd.race_predictions
      body_battery := hd.body_battery ++ bbS ++
        bbFallbackForAcc o req d (hd.body_battery ++ bbS)
      hydration := hd.hydration ++ hydrationFor o req d }

/-- The per-date loop. -/
def aggLoop (o : Oracle) (req : List String) : List String → HealthData → HealthData
  | [], hd => hd
  | d :: ds, hd => aggLoop o req ds (processDate o req d hd)

/-- `health_data` after initialization and the pre-loop fetches. -/
def initHealth (o : Oracle) (req : List String) (start_date : String) : HealthData :=
  { steps := [], total_distance := [], highly_active_seconds := [],
    active_seconds := [], sedentary_seconds := [], sleep := [], stress := [],
    spo2 := [], lactate_threshold := lactateFor o req start_date,
    race_predictions := raceFor o req start_date, body_battery := [],
    hydration := [] }

/-- The aggregation core: empty requested categories mean "all known
categories"; then the pre-loop fetches and the per-date loop. -/
def aggregate (o : Oracle) (req₀ : List String) (start_date : String)
    (dates : List String) : HealthData :=
  let req := if req₀.isEmpty then ALL_HEALTH_METRICS else req₀
  aggLoop o req dates (initHealth o req start_date)

/-- The date-local spo2 result (the accumulated sleep prefix from other
dates is irrelevant because the fallback matches on `entry_date == d`). -/
def spo2DayFor (o : Oracle) (req : List String) (d : String) : List Spo2Entry :=
  spo2ForAcc o req d (sleepFor o req d)

/-- The date-local body-battery result (summary source plus fallback). -/
def bbDayFor (o : Oracle) (req : List String) (d : String) : List BBEntry :=
  (dailySummaryFor o req d).2.2.2.2.2 ++
    bbFallbackForAcc o req d (dailySummaryFor o req d).2.2.2.2.2

theorem buildSleepEntry_date (raw : SleepDataRaw) (d : String) (r : SleepRecord)
    (h : buildSleepEntry raw d = some r) : r.entry_date = d := by
  simp only [buildSleepEntry] at h
  split at h
  · exact absurd h (by simp)
  · split at h
    · simp only [Option.some.injEq] at h
      subst h
      rfl
    · exact absurd h (by simp)

theorem sleepFor_date (o : Oracle) (req : List String) (d : String) :
    ∀ r ∈ sleepFor o req d, r.entry_date = d := by
  intro r hr
  simp only [sleepFor] at hr
  split at hr
  · split at hr
    · split at hr
      · rename_i rec hb
        simp only [List.mem_singleton] at hr
        subst hr
        exact buildSleepEntry_date _ d _ hb
      · cases hr
    · cases hr
  · cases hr

theorem dailySummary_steps_date (o : Oracle) (req : List String) (d : String) :
    ∀ e ∈ (dailySummaryFor o req d).1, e.date = d := by
  intro e he
  simp only [dailySummaryFor] at he
  split at he
  · split at he
    · split at he <;> simp_all
    · cases he
  · cases he

theorem dailySummary_dist_date (o : Oracle) (req : List String) (d : String) :
    ∀ e ∈ (dailySummaryFor o req d).2.1, e.date = d := by
  intro e he
  simp only [dailySummaryFor] at he
  split at he
  · split at he
    · split at he <;> simp_all
    · cases he
  · cases he

theorem dailySummary_hi_date (o : Oracle) (req : List String) (d : String) :
    ∀ e ∈ (dailySummaryFor o req d).2.2.1, e.date = d := by
  intro e he
  simp only [dailySummaryFor] at he
  split at he
  · split at he
    · split at he <;> simp_all
    · cases he
  · cases he

theorem dailySummary_act_date (o : Oracle) (req : List String) (d : String) :
    ∀ e ∈ (dailySummaryFor o req d).2.2.2.1, e.date = d := by
  intro e he
  simp only [dailySummaryFor] at he
  split at he
  · split at he
    · split at he <;> simp_all
    · cases he
  · cases he

theorem dailySummary_sed_date (o : Oracle) (req : List String) (d : String) :
    ∀ e ∈ (dailySummaryFor o req d).2.2.2.2.1, e.date = d := by
  intro e he
  simp only [dailySummaryFor] at he
  split at he
  · split at he
    · split at he <;> simp_all
    · cases he
  · cases he

theorem dailySummary_bb_date (o : Oracle) (req : List String) (d : String) :
    ∀ e ∈ (dailySummaryFor o req d).2.2.2.2.2, e.date = d := by
  intro e he
  simp only [dailySummaryFor] at he
  split at he
  · split at he
    · split at he <;> simp_all
    · cases he
  · cases he

theorem bbFallback_date (o : Oracle) (req : List String) (d : String)
    (acc : List BBEntry) : ∀ e ∈ bbFallbackForAcc o req d acc, e.date = d := by
  intro e he
  simp only [bbFallbackForAcc] at he
  split at he
  · split at he
    · split at he
      · simp only [List.mem_map] at he
        obtain ⟨be, -, hbe⟩ := he
        subst hbe
        rfl
      · cases he
    · cases he
  · cases he

theorem bbDayFor_date (o : Oracle) (req : List String) (d : String) :
    ∀ e ∈ bbDayFor o req d, e.date = d := by
  intro e he
  simp only [bbDayFor] at he
  rcases List.mem_append.mp he with h | h
  · exact dailySummary_bb_date o req d e h
  · exact bbFallback_date o req d _ e h

theorem find?_sleep_prefix (pre rest : List SleepRecord) (d : String)
    (hpre : ∀ e ∈ pre, e.entry_date ≠ d) :
    (pre ++ rest).find?
        (fun e => e.entry_date == d && truthyQ e.average_spo2_value) =
      rest.find? (fun e => e.entry_date == d && truthyQ e.average_spo2_value) := by
  induction pre with
  | nil => rfl
  | cons x xs ih =>
    simp only [List.cons_append, List.find?]
    rw [show (x.entry_date == d && truthyQ x.average_spo2_value) = false by
      simp only [Bool.and_eq_false_iff]
      left
      simpa using hpre x (List.mem_cons_self x xs)]
    exact ih (fun e he => hpre e (List.mem_cons_of_mem x he))

theorem spo2ForAcc_prefix (o : Oracle) (req : List String) (d : String)
    (pre rest : List SleepRecord) (hpre : ∀ e ∈ pre, e.entry_date ≠ d) :
    spo2ForAcc o req d (pre ++ rest) = spo2ForAcc o req d rest := by
  cases pre with
  | nil => rfl
  | cons x xs =>
    have hfind := find?_sleep_prefix (x :: xs) rest d hpre
    simp only [spo2ForAcc]
    rw [hfind]
    cases hrest : rest.isEmpty with
    | false => simp only [List.cons_append, List.isEmpty_cons, hrest]
    | true =>
      have hre : rest = [] := by simpa using hrest
      subst hre
      simp

theorem bbFallbackForAcc_prefix (o : Oracle) (req : List String) (d : String)
    (pre rest : List BBEntry) (hpre : ∀ e ∈ pre, e.date ≠ d) :
    bbFallbackForAcc o req d (pre ++ rest) = bbFallbackForAcc o req d rest := by
  simp only [bbFallbackForAcc, List.any_append]
  have hpre' : pre.any (fun e => e.date == d) = false := by
    simp only [List.any_eq_false]
    intro e he
    simpa using hpre e he
  rw [hpre']
  simp

theorem aggLoop_char (o : Oracle) (req : List String) :
    ∀ (dates : List String) (hd : HealthData), dates.Nodup →
    (∀ e ∈ hd.sleep, e.entry_date ∉ dates) →
    (∀ e ∈ hd.body_battery, e.date ∉ dates) →
    aggLoop o req dates hd =
      { steps := hd.steps ++ dates.flatMap (fun d => (dailySummaryFor o req d).1)
        total_distance :=
          hd.total_distance ++ dates.flatMap (fun d => (dailySummaryFor o req d).2.1)
        highly_active_seconds :=
          hd.highly_active_seconds ++
            dates.flatMap (fun d => (dailySummaryFor o req d).2.2.1)
        active_seconds :=
          hd.active_seconds ++ dates.flatMap (fun d => (dailySummaryFor o req d).2.2.2.1)
        sedentary_seconds :=
          hd.sedentary_seconds ++
            dates.flatMap (fun d => (dailySummaryFor o req d).2.2.2.2.1)
        sleep := hd.sleep ++ dates.flatMap (sleepFor o req)
        stress := hd.stress ++ dates.flatMap (stressFor o req)
        spo2 := hd.spo2 ++ dates.flatMap (spo2DayFor o req)
        lactate_threshold := hd.lactate_threshold
        race_predictions := hd.race_predictions
        body_battery := hd.body_battery ++ dates.flatMap (bbDayFor o req)
        hydration := hd.hydration ++ dates.flatMap (hydrationFor o req) } := by
  intro dates
  induction dates with
  | nil =>
    intro hd _ _ _
    simp [aggLoop]
  | cons d ds ih =>
    intro hd hnd hsl hbb
    have hnd' : ds.Nodup := (List.nodup_cons.mp hnd).2
    have hdds : d ∉ ds := (List.nodup_cons.mp hnd).1
    have hproc : processDate o req d hd =
        { steps := hd.steps ++ (dailySummaryFor o req d).1
          total_distance := hd.total_distance ++ (dailySummaryFor o req d).2.1
          highly_active_seconds :=
            hd.highly_active_seconds ++ (dailySummaryFor o req d).2.2.1
          active_seconds := hd.active_seconds ++ (dailySummaryFor o req d).2.2.2.1
          sedentary_seconds :=
            hd.sedentary_seconds ++ (dailySummaryFor o req d).2.2.2.2.1
          sleep := hd.sleep ++ sleepFor o req d
          stress := hd.stress ++ stressFor o req d
          spo2 := hd.spo2 ++ spo2DayFor o req d
          lactate_threshold := hd.lactate_threshold
          race_predictions := hd.race_predictions
          body_battery := hd.body_battery ++ bbDayFor o req d
          hydration := hd.hydration ++ hydrationFor o req d } := by
      simp only [processDate, bbDayFor, spo2DayFor]
      have h1 : spo2ForAcc o req d (hd.sleep ++ sleepFor o req d) =
          spo2ForAcc o req d (sleepFor o req d) :=
        spo2ForAcc_prefix o req d hd.sleep _ (fun e he => by
          intro hed
          exact hsl e he (by simp [hed]))
      have h2 : bbFallbackForAcc o req d
            (hd.body_battery ++ (dailySummaryFor o req d).2.2.2.2.2) =
          bbFallbackForAcc o req d (dailySummaryFor o req d).2.2.2.2.2 :=
        bbFallbackForAcc_prefix o req d hd.body_battery _ (fun e he => by
          intro hed
          exact hbb e he (by simp [hed]))
      rw [h1, h2]
      simp [List.append_assoc]
    have hsl' : ∀ e ∈ (processDate o req d hd).sleep, e.entry_date ∉ ds := by
      rw [hproc]
      intro e he
      rcases List.mem_append.mp he with h | h
      · intro hmem
        exact hsl e h (by simp [hmem])
      · rw [sleepFor_date o req d e h]
        exact hdds
    have hbb' : ∀ e ∈ (processDate o req d hd).body_battery, e.date ∉ ds := by
      rw [hproc]
      intro e he
      rcases List.mem_append.mp he with h | h
      · intro hmem
        exact hbb e h (by simp [hmem])
      · rw [bbDayFor_date o req d e h]
        exact hdds
    have := ih (processDate o req d hd) hnd' hsl' hbb'
    simp only [aggLoop]
    rw [this, hproc]
    simp [List.flatMap_cons, List.append_assoc]

/-- Failure injection: the same upstream client except that the
`get_user_summary` call for `dstar` throws. -/
def failSummaryAt (o : Oracle) (dstar : String) : Oracle :=
  { o with userSummary := fun d => if d = dstar then .error () else o.userSummary d }

theorem dailySummaryFor_fail_ne (o : Oracle) (req : List String) (dstar d : String)
    (hd : d ≠ dstar) :
    dailySummaryFor (failSummaryAt o dstar) req d = dailySummaryFor o req d := by
  have hus : (failSummaryAt o dstar).userSummary d = o.userSummary d := by
    simp [failSummaryAt, hd]
  simp only [dailySummaryFor]
  rw [hus]

theorem dailySummaryFor_fail_at (o : Oracle) (req : List String) (dstar : String) :
    dailySummaryFor (failSummaryAt o dstar) req dstar = ([], [], [], [], [], []) := by
  have hus : (failSummaryAt o dstar).userSummary dstar = .error () := by
    simp [failSummaryAt]
  simp only [dailySummaryFor]
  rw [hus]
  cases h : anySummaryMetric req <;> simp

theorem bbDayFor_fail_ne (o : Oracle) (req : List String) (dstar d : String)
    (hd : d ≠ dstar) :
    bbDayFor (failSummaryAt o dstar) req d = bbDayFor o req d := by
  simp only [bbDayFor, dailySummaryFor_fail_ne o req dstar d hd]
  rfl

theorem flatMap_series_drop {β : Type} (dates : List String) (dstar : String)
    (f g : String → List β) (dateOf : β → String)
    (hdate : ∀ d, ∀ e ∈ f d, dateOf e = d)
    (hne : ∀ d, d ≠ dstar → g d = f d)
    (hat : g dstar = []) :
    dates.flatMap g = (dates.flatMap f).filter (fun e => dateOf e != dstar) := by
  induction dates with
  | nil => rfl
  | cons d ds ih =>
    simp only [List.flatMap_cons, List.filter_append]
    rw [ih]
    congr 1
    by_cases hd : d = dstar
    · subst hd
      rw [hat]
      symm
      rw [List.filter_eq_nil_iff]
      intro e he
      simp [hdate _ e he]
    · rw [hne d hd]
      symm
      rw [List.filter_eq_self]
      intro e he
      simp [hdate _ e he, hd]

theorem flatMap_series_frame {β : Type} (dates : List String) (dstar : String)
    (f g : String → List β) (dateOf : β → String)
    (hdate : ∀ d, ∀ e ∈ f d, dateOf e = d)
    (hdate' : ∀ d, ∀ e ∈ g d, dateOf e = d)
    (hne : ∀ d, d ≠ dstar → g d = f d) :
    (dates.flatMap g).filter (fun e => dateOf e != dstar) =
      (dates.flatMap f).filter (fun e => dateOf e != dstar) := by
  induction dates with
  | nil => rfl
  | cons d ds ih =>
    simp only [List.flatMap_cons, List.filter_append]
    rw [ih]
    congr 1
    by_cases hd : d = dstar
    · subst hd
      have h1 : (g d).filter (fun e => dateOf e != d) = [] := by
        rw [List.filter_eq_nil_iff]
        intro e he
        simp [hdate' _ e he]
      have h2 : (f d).filter (fun e => dateOf e != d) = [] := by
        rw [List.filter_eq_nil_iff]
        intro e he
        simp [hdate _ e he]
      rw [h1, h2]
    · rw [hne d hd]

theorem aggCore_isolation (o : Oracle) (req : List String) (s dstar : String)
    (dates : List String) (hnd : dates.Nodup) :
    (aggLoop (failSummaryAt o dstar) req dates
        (initHealth (failSummaryAt o dstar) req s)).steps =
      (aggLoop o req dates (initHealth o req s)).steps.filter
        (fun e => e.date != dstar) ∧
    (aggLoop (failSummaryAt o dstar) req dates
        (initHealth (failSummaryAt o dstar) req s)).total_distance =
      (aggLoop o req dates (initHealth o req s)).total_distance.filter
        (fun e => e.date != dstar) ∧
    (aggLoop (failSummaryAt o dstar) req dates
        (initHealth (failSummaryAt o dstar) req s)).highly_active_seconds =
      (aggLoop o req dates (initHealth o req s)).highly_active_seconds.filter
        (fun e => e.date != dstar) ∧
    (aggLoop (failSummaryAt o dstar) req dates
        (initHealth (failSummaryAt o dstar) req s)).active_seconds =
      (aggLoop o req dates (initHealth o req s)).active_seconds.filter
        (fun e => e.date != dstar) ∧
    (aggLoop (failSummaryAt o dstar) req dates
        (initHealth (failSummaryAt o dstar) req s)).sedentary_seconds =
      (aggLoop o req dates (initHealth o req s)).sedentary_seconds.filter
        (fun e => e.date != dstar) ∧
    (aggLoop (failSummaryAt o dstar) req dates
        (initHealth (failSummaryAt o dstar) req s)).sleep =
      (aggLoop o req dates (initHealth o req s)).sleep ∧
    (aggLoop (failSummaryAt o dstar) req dates
        (initHealth (failSummaryAt o dstar) req s)).stress =
      (aggLoop o req dates (initHealth o req s)).stress ∧
    (aggLoop (failSummaryAt o dstar) req dates
        (initHealth (failSummaryAt o dstar) req s)).spo2 =
      (aggLoop o req dates (initHealth o req s)).spo2 ∧
    (aggLoop (failSummaryAt o dstar) req dates
        (initHealth (failSummaryAt o dstar) req s)).hydration =
      (aggLoop o req dates (initHealth o req s)).hydration ∧
    (aggLoop (failSummaryAt o dstar) req dates
        (initHealth (failSummaryAt o dstar) req s)).lactate_threshold =
      (aggLoop o req dates (initHealth o req s)).lactate_threshold ∧
    (aggLoop (failSummaryAt o dstar) req dates
        (initHealth (failSummaryAt o dstar) req s)).race_predictions =
      (aggLoop o req dates (initHealth o req s)).race_predictions ∧
    (aggLoop (failSummaryAt o dstar) req dates
        (initHealth (failSummaryAt o dstar) req s)).body_battery.filter
        (fun e => e.date != dstar) =
      (aggLoop o req dates (initHealth o req s)).body_battery.filter
        (fun e => e.date != dstar) := by
  have hA := aggLoop_char o req dates (initHealth o req s) hnd
    (by simp [initHealth]) (by simp [initHealth])
  have hB := aggLoop_char (failSummaryAt o dstar) req dates
    (initHealth (failSummaryAt o dstar) req s) hnd
    (by simp [initHealth]) (by simp [initHealth])
  rw [hA, hB]
  simp only [initHealth, List.nil_append]
  refine ⟨?_, ?_, ?_, ?_, ?_, rfl, rfl, rfl, rfl, rfl, rfl, ?_⟩
  · exact flatMap_series_drop dates dstar _ _ StepsEntry.date
      (fun d => dailySummary_steps_date o req d)
      (fun d hd => by rw [dailySummaryFor_fail_ne o req dstar d hd])
      (by rw [dailySummaryFor_fail_at])
  · exact flatMap_series_drop dates dstar _ _ QEntry.date
      (fun d => dailySummary_dist_date o req d)
      (fun d hd => by rw [dailySummaryFor_fail_ne o req dstar d hd])
      (by rw [dailySummaryFor_fail_at])
  · exact flatMap_series_drop dates dstar _ _ QEntry.date
      (fun d => dailySummary_hi_date o req d)
      (fun d hd => by rw [dailySummaryFor_fail_ne o req dstar d hd])
      (by rw [dailySummaryFor_fail_at])
  · exact flatMap_series_drop dates dstar _ _ QEntry.date
      (fun d => dailySummary_act_date o req d)
      (fun d hd => by rw [dailySummaryFor_fail_ne o req dstar d hd])
      (by rw [dailySummaryFor_fail_at])
  · exact flatMap_series_drop dates dstar _ _ QEntry.date
      (fun d => dailySummary_sed_date o req d)
      (fun d hd => by rw [dailySummaryFor_fail_ne o req dstar d hd])
      (by rw [dailySummaryFor_fail_at])
  · exact flatMap_series_frame dates dstar _ _ BBEntry.date
      (fun d => bbDayFor_date o req d)
      (fun d => bbDayFor_date (failSummaryAt o dstar) req d)
      (fun d hd => bbDayFor_fail_ne o req dstar d hd)

/-- **C1 (amended).** Failure isolation in aggregation holds per upstream
call, not per category: if the `get_user_summary` fetch for one date throws
(`failSummaryAt`), every other block of every date is unaffected (sleep,
stress, spo2, hydration, lactate-threshold and race-prediction series are
identical, and body-battery entries of other dates are identical), and the
five summary-fed series — steps, total_distance, highly_active_seconds,
active_seconds, sedentary_seconds — all lose exactly that date's entries
simultaneously, because one fetch serves all of them. -/
theorem C1_failure_isolation (o : Oracle) (req₀ : List String) (s dstar : String)
    (dates : List String) (hnd : dates.Nodup) :
    (aggregate (failSummaryAt o dstar) req₀ s dates).steps =
      (aggregate o req₀ s dates).steps.filter (fun e => e.date != dstar) ∧
    (aggregate (failSummaryAt o dstar) req₀ s dates).total_distance =
      (aggregate o req₀ s dates).total_distance.filter (fun e => e.date != dstar) ∧
    (aggregate (failSummaryAt o dstar) req₀ s dates).highly_active_seconds =
      (aggregate o req₀ s dates).highly_active_seconds.filter
        (fun e => e.date != dstar) ∧
    (aggregate (failSummaryAt o dstar) req₀ s dates).active_seconds =
      (aggregate o req₀ s dates).active_seconds.filter (fun e => e.date != dstar) ∧
    (aggregate (failSummaryAt o dstar) req₀ s dates).sedentary_seconds =
      (aggregate o req₀ s dates).sedentary_seconds.filter
        (fun e => e.date != dstar) ∧
    (aggregate (failSummaryAt o dstar) req₀ s dates).sleep =
      (aggregate o req₀ s dates).sleep ∧
    (aggregate (failSummaryAt o dstar) req₀ s dates).stress =
      (aggregate o req₀ s dates).stress ∧
    (aggregate (failSummaryAt o dstar) req₀ s dates).spo2 =
      (aggregate o req₀ s dates).spo2 ∧
    (aggregate (failSummaryAt o dstar) req₀ s dates).hydration =
      (aggregate o req₀ s dates).hydration ∧
    (aggregate (failSummaryAt o dstar) req₀ s dates).lactate_threshold =
      (aggregate o req₀ s dates).lactate_threshold ∧
    (aggregate (failSummaryAt o dstar) req₀ s dates).race_predictions =
      (aggregate o req₀ s dates).race_predictions ∧
    (aggregate (failSummaryAt o dstar) req₀ s dates).body_battery.filter
        (fun e => e.date != dstar) =
      (aggregate o req₀ s dates).body_battery.filter (fun e => e.date != dstar) :=
  aggCore_isolation o (if req₀.isEmpty then ALL_HEALTH_METRICS else req₀)
    s dstar dates hnd

/-- A summary response carrying only a step count. -/
def c1Summary : UserSummary :=
  ⟨some 1000, none, none, none, none, none, none,
   none, none, none, none, none, none⟩

/-- An upstream client whose daily summary always succeeds with `c1Summary`
and whose other endpoints always throw. -/
def c1Oracle : Oracle :=
  ⟨fun _ => .ok (some c1Summary), fun _ => .error (), fun _ => .error (),
   fun _ => .error (), fun _ => .error (), fun _ => .error (),
   .error (), .error ()⟩

/-- Witness for **C1**: the amended isolation theorem applied to the
concrete three-date request. -/
theorem C1_failure_isolation_witness :
    (["d1", "d2", "d3"] : List String).Nodup ∧
    (aggregate (failSummaryAt c1Oracle "d2") ["steps", "total_distance"] "d1"
        ["d1", "d2", "d3"]).steps =
      (aggregate c1Oracle ["steps", "total_distance"] "d1"
        ["d1", "d2", "d3"]).steps.filter (fun e => e.date != "d2") :=
  ⟨by decide,
   (C1_failure_isolation c1Oracle ["steps", "total_distance"] "d1" "d2"
     ["d1", "d2", "d3"] (by decide)).1⟩

/-- Counterexample to **C1** as stated: one upstream fetch
(`get_user_summary` for `"d2"`) serves several categories, so its failure
removes the date from the `total_distance` series as well as from `steps` —
the other requested category is not unaffected. -/
theorem C1_shared_fetch_counterexample :
    (aggregate (failSummaryAt c1Oracle "d2") ["steps", "total_distance"] "d1"
        ["d1", "d2", "d3"]).steps =
      [⟨"d1", some 1000⟩, ⟨"d3", some 1000⟩] ∧
    (aggregate (failSummaryAt c1Oracle "d2") ["steps", "total_distance"] "d1"
        ["d1", "d2", "d3"]).total_distance = [⟨"d1", none⟩, ⟨"d3", none⟩] ∧
    (aggregate c1Oracle ["steps", "total_distance"] "d1"
        ["d1", "d2", "d3"]).total_distance =
      [⟨"d1", none⟩, ⟨"d2", none⟩, ⟨"d3", none⟩] := by
  refine ⟨rfl, rfl, rfl⟩

/-- Civil date from days since the Unix epoch
(the standard era-based algorithm, floor divisions). -/
def civilFromDays (z0 : ℤ) : ℤ × ℤ × ℤ :=
  let z := z0 + 719468
  let era := Int.ediv z 146097
  let doe := z - era * 146097
  let yoe := Int.ediv (doe - Int.ediv doe 1460 + Int.ediv doe 36524 -
    Int.ediv doe 146096) 365
  let y := yoe + era * 400
  let doy := doe - (365 * yoe + Int.ediv yoe 4 - Int.ediv yoe 100)
  let mp := Int.ediv (5 * doy + 2) 153
  let dd := doy - Int.ediv (153 * mp + 2) 5 + 1
  let m := mp + (if mp < 10 then 3 else -9)
  (y + (if m ≤ 2 then 1 else 0), m, dd)

/-- Two-digit zero padding. -/
def pad2 (n : ℤ) : String := (if n < 10 then "0" else "") ++ toString n

/-- Four-digit zero padding. -/
def pad4 (n : ℤ) : String :=
  (if n < 10 then "000" else if n < 100 then "00" else
   if n < 1000 then "0" else "") ++ toString n

/-- `datetime.isoformat()` of a UTC epoch-second timestamp, at the model's
whole-second granularity. -/
def isoUTC (t : ℤ) : String :=
  let days := Int.ediv t 86400
  let secs := Int.emod t 86400
  let ymd := civilFromDays days
  pad4 ymd.1 ++ "-" ++ pad2 ymd.2.1 ++ "-" ++ pad2 ymd.2.2 ++ "T" ++
    pad2 (Int.ediv secs 3600) ++ ":" ++ pad2 (Int.ediv (Int.emod secs 3600) 60) ++
    ":" ++ pad2 (Int.emod secs 60) ++ "+00:00"

/-- An optional integer as a JSON value (`None` → `null`). -/
def zjOrNull : Option ℤ → JVal
  | some n => .num (n : ℚ)
  | none => .null

/-- An optional number as a JSON value (`None` → `null`). -/
def qjOrNull : Option ℚ → JVal
  | some q => .num q
  | none => .null

/-- An optional string as a JSON value (`None` → `null`). -/
def sjOrNull : Option String → JVal
  | some s => .str s
  | none => .null

/-- The `health_data["steps"]` entry dict (source line 317). -/
def encSteps (e : StepsEntry) : JVal :=
  .obj [("date", .str e.date), ("value", zjOrNull e.value)]

/-- The entry dict of the four converted summary metrics
(source lines 319–327). -/
def encQ (e : QEntry) : JVal :=
  .obj [("date", .str e.date), ("value", qjOrNull e.value)]

/-- One `stage_events` element (source lines 497–502). -/
def encStage (ev : StageEvent) : JVal :=
  .obj [("stage_type", .str ev.stage_type),
        ("start_time", .str (isoUTC ev.start_time)),
        ("end_time", .str (isoUTC ev.end_time)),
        ("duration_in_seconds", .num (ev.duration_in_seconds : ℚ))]

/-- The `sleep_entry_data` dict (source lines 446–474), field order as in
the literal. -/
def encSleep (r : SleepRecord) : JVal :=
  .obj [("entry_date", .str r.entry_date),
        ("bedtime", .str (isoUTC r.bedtime)),
        ("wake_time", .str (isoUTC r.wake_time)),
        ("duration_in_seconds", .num (r.duration_in_seconds : ℚ)),
        ("time_asleep_in_seconds", .num (r.time_asleep_in_seconds : ℚ)),
        ("source", .str "garmin"),
        ("sleep_score", zjOrNull r.sleep_score),
        ("deep_sleep_seconds", .num (r.deep_sleep_seconds : ℚ)),
        ("light_sleep_seconds", .num (r.light_sleep_seconds : ℚ)),
        ("rem_sleep_seconds", .num (r.rem_sleep_seconds : ℚ)),
        ("awake_sleep_seconds", .num (r.awake_sleep_seconds : ℚ)),
        ("average_spo2_value", qjOrNull r.average_spo2_value),
        ("lowest_spo2_value", qjOrNull r.lowest_spo2_value),
        ("highest_spo2_value", qjOrNull r.highest_spo2_value),
        ("average_respiration_value", qjOrNull r.average_respiration_value),
        ("lowest_respiration_value", qjOrNull r.lowest_respiration_value),
        ("highest_respiration_value", qjOrNull r.highest_respiration_value),
        ("awake_count", zjOrNull r.awake_count),
        ("avg_sleep_stress", qjOrNull r.avg_sleep_stress),
        ("restless_moments_count", zjOrNull r.restless_moments_count),
        ("avg_overnight_hrv", qjOrNull r.avg_overnight_hrv),
        ("body_battery_change", zjOrNull r.body_battery_change),
        ("resting_heart_rate", zjOrNull r.resting_heart_rate),
        ("stage_events", .arr (r.stage_events.map encStage))]

/-- One `stressLevel`/`BodyBatteryLevel` sample dict (source lines 548, 553):
ms epoch converted to seconds and rendered as an ISO timestamp. -/
def encStressSample (p : ℤ × ℤ) : JVal :=
  .obj [("time", .str (isoUTC (Int.ediv p.1 1000))),
        ("stress_level", .num (p.2 : ℚ))]

/-- The `stress_data_entry` dict (source lines 534–571): literal keys
`date`, `stressLevel`, `BodyBatteryLevel`, then the appended
`raw_stress_data` (a copy of `stressLevel`), `derived_mood_value`,
`derived_mood_notes`. -/
def encStress (e : StressEntry) : JVal :=
  .obj [("date", .str e.date),
        ("stressLevel", .arr (e.stressLevel.map encStressSample)),
        ("BodyBatteryLevel", .arr (e.bodyBattery.map encStressSample)),
        ("raw_stress_data", .arr (e.stressLevel.map encStressSample)),
        ("derived_mood_value", zjOrNull e.derived_mood_value),
        ("derived_mood_notes", sjOrNull e.derived_mood_notes)]

/-- The `health_data["spo2"]` entry dict (source line 641). -/
def encSpo2 (e : Spo2Entry) : JVal :=
  .obj [("date", .str e.date), ("average_spo2", .num e.average_spo2)]

/-- The `health_data["lactate_threshold"]` entry dict (source line 272). -/
def encLactate (e : LactateEntry) : JVal :=
  .obj [("date", .str e.date),
        ("lactate_threshold_hr", qjOrNull e.lactate_threshold_hr)]

/-- The `race_entry` dict (source lines 288–293): `date` plus one key per
mapped race type (a `None` prediction still creates its key). -/
def encRace (e : RaceEntry) : JVal :=
  .obj ([("date", .str e.date)] ++
    (match e.race_prediction_5k with
     | some v => [("race_prediction_5k", zjOrNull v)]
     | none => []) ++
    (match e.race_prediction_10k with
     | some v => [("race_prediction_10k", zjOrNull v)]
     | none => []) ++
    (match e.race_prediction_half_marathon with
     | some v => [("race_prediction_half_marathon", zjOrNull v)]
     | none => []) ++
    (match e.race_prediction_marathon with
     | some v => [("race_prediction_marathon", zjOrNull v)]
     | none => []))

/-- The `health_data["body_battery"]` entry dict (sources 337–345,
823–831). -/
def encBB (e : BBEntry) : JVal :=
  .obj [("date", .str e.date),
        ("body_battery_highest", zjOrNull e.body_battery_highest),
        ("body_battery_lowest", zjOrNull e.body_battery_lowest),
        ("body_battery_at_wake", zjOrNull e.body_battery_at_wake),
        ("body_battery_charged", zjOrNull e.body_battery_charged),
        ("body_battery_drained", zjOrNull e.body_battery_drained),
        ("body_battery_current", zjOrNull e.body_battery_current)]

/-- The `health_data["hydration"]` entry dict (source line 354). -/
def encHydration (e : HydrationEntry) : JVal :=
  .obj [("date", .str e.date), ("hydration", .num e.hydration)]

/-- The modelled categories of `health_data` as JSON, keys in
`ALL_HEALTH_METRICS` initialization order (source line 263). -/
def encodeEntries (hd : HealthData) : List (String × JVal) :=
  [("steps", .arr (hd.steps.map encSteps)),
   ("total_distance", .arr (hd.total_distance.map encQ)),
   ("highly_active_seconds", .arr (hd.highly_active_seconds.map encQ)),
   ("active_seconds", .arr (hd.active_seconds.map encQ)),
   ("sedentary_seconds", .arr (hd.sedentary_seconds.map encQ)),
   ("sleep", .arr (hd.sleep.map encSleep)),
   ("stress", .arr (hd.stress.map encStress)),
   ("spo2", .arr (hd.spo2.map encSpo2)),
   ("lactate_threshold", .arr (hd.lactate_threshold.map encLactate)),
   ("race_predictions", .arr (hd.race_predictions.map encRace)),
   ("body_battery", .arr (hd.body_battery.map encBB)),
   ("hydration", .arr (hd.hydration.map encHydration))]

/-- `health_data` as the JSON document handed to `clean_garmin_data`. -/
def encodeHealth (hd : HealthData) : JVal := .obj (encodeEntries hd)

/-- The value of `cleaned_health_data` (proved below): every category key
survives cleaning, with the entry list cleaned element-wise. -/
def cleanedEntries (hd : HealthData) : List (String × JVal) :=
  [("steps", .arr ((hd.steps.map encSteps).filterMap clean)),
   ("total_distance", .arr ((hd.total_distance.map encQ).filterMap clean)),
   ("highly_active_seconds",
     .arr ((hd.highly_active_seconds.map encQ).filterMap clean)),
   ("active_seconds", .arr ((hd.active_seconds.map encQ).filterMap clean)),
   ("sedentary_seconds", .arr ((hd.sedentary_seconds.map encQ).filterMap clean)),
   ("sleep", .arr ((hd.sleep.map encSleep).filterMap clean)),
   ("stress", .arr ((hd.stress.map encStress).filterMap clean)),
   ("spo2", .arr ((hd.spo2.map encSpo2).filterMap clean)),
   ("lactate_threshold", .arr ((hd.lactate_threshold.map encLactate).filterMap clean)),
   ("race_predictions", .arr ((hd.race_predictions.map encRace).filterMap clean)),
   ("body_battery", .arr ((hd.body_battery.map encBB).filterMap clean)),
   ("hydration", .arr ((hd.hydration.map encHydration).filterMap clean))]

/-- `final_health_data` (source lines 916–919): the cleaned `health_data`
with falsy values — in particular empty category lists — removed. -/
def finalize (hd : HealthData) : List (String × JVal) :=
  match clean (encodeHealth hd) with
  | some (.obj kvs) => kvs.filter (fun kv => jTruthy kv.2)
  | _ => []

theorem cleanedEntries_eq (hd : HealthData) :
    (encodeEntries hd).filterMap (cleanEntry clean) = cleanedEntries hd := by
  have hex : excludedKey "steps" = false ∧ excludedKey "total_distance" = false ∧
      excludedKey "highly_active_seconds" = false ∧
      excludedKey "active_seconds" = false ∧
      excludedKey "sedentary_seconds" = false ∧ excludedKey "sleep" = false ∧
      excludedKey "stress" = false ∧ excludedKey "spo2" = false ∧
      excludedKey "lactate_threshold" = false ∧
      excludedKey "race_predictions" = false ∧
      excludedKey "body_battery" = false ∧ excludedKey "hydration" = false := by
    decide
  obtain ⟨x1, x2, x3, x4, x5, x6, x7, x8, x9, x10, x11, x12⟩ := hex
  simp [encodeEntries, cleanedEntries, List.filterMap_cons, cleanEntry, isNull,
    x1, x2, x3, x4, x5, x6, x7, x8, x9, x10, x11, x12, clean_arrEq]

theorem clean_encodeHealth (hd : HealthData) :
    clean (encodeHealth hd) = some (.obj (cleanedEntries hd)) := by
  show clean (.obj (encodeEntries hd)) = _
  rw [clean_objEq, cleanedEntries_eq hd]
  simp [cleanedEntries]

theorem finalize_eq (hd : HealthData) :
    finalize hd = (cleanedEntries hd).filter (fun kv => jTruthy kv.2) := by
  simp only [finalize, clean_encodeHealth hd]

theorem arr_truthy_ne_nil {L : List JVal} (h : jTruthy (.arr L) = true) :
    L ≠ [] := by
  intro hnil
  subst hnil
  simp [jTruthy] at h

theorem flatMap_nil_of {β : Type} (l : List String) (f : String → List β)
    (hf : ∀ d ∈ l, f d = []) : l.flatMap f = [] := by
  induction l with
  | nil => rfl
  | cons d ds ih =>
    simp only [List.flatMap_cons]
    rw [hf d (List.mem_cons_self d ds), List.nil_append]
    exact ih (fun e he => hf e (List.mem_cons_of_mem d he))

theorem filterMap_all_some {α β : Type} (l : List α) (f : α → Option β)
    (g : α → β) (h : ∀ x ∈ l, f x = some (g x)) : l.filterMap f = l.map g := by
  induction l with
  | nil => rfl
  | cons x xs ih =>
    simp only [List.filterMap_cons, List.map_cons,
      h x (List.mem_cons_self x xs)]
    rw [ih (fun y hy => h y (List.mem_cons_of_mem x hy))]

theorem flatMap_length_le {β : Type} (l : List String) (f : String → List β)
    (h : ∀ d ∈ l, (f d).length ≤ 1) : (l.flatMap f).length ≤ l.length := by
  induction l with
  | nil => simp
  | cons d ds ih =>
    simp only [List.flatMap_cons, List.length_append, List.length_cons]
    have h1 := h d (List.mem_cons_self d ds)
    have h2 := ih (fun e he => h e (List.mem_cons_of_mem d he))
    omega

theorem dailySummaryFor_steps_rest (o : Oracle) (d : String) :
    (dailySummaryFor o ["steps"] d).2.1 = [] ∧
    (dailySummaryFor o ["steps"] d).2.2.1 = [] ∧
    (dailySummaryFor o ["steps"] d).2.2.2.1 = [] ∧
    (dailySummaryFor o ["steps"] d).2.2.2.2.1 = [] ∧
    (dailySummaryFor o ["steps"] d).2.2.2.2.2 = [] := by
  simp only [dailySummaryFor]
  cases h : o.userSummary d with
  | error u => exact ⟨rfl, rfl, rfl, rfl, rfl⟩
  | ok s? =>
    cases s? with
    | none => exact ⟨rfl, rfl, rfl, rfl, rfl⟩
    | some sum => exact ⟨rfl, rfl, rfl, rfl, rfl⟩

theorem dailySummary_steps_len (o : Oracle) (d : String) :
    (dailySummaryFor o ["steps"] d).1.length ≤ 1 := by
  simp only [dailySummaryFor]
  cases h : o.userSummary d with
  | error u => simp
  | ok s? =>
    cases s? with
    | none => simp
    | some sum =>
      show ([⟨d, sum.totalSteps⟩] : List StepsEntry).length ≤ 1
      simp

theorem bbDayFor_steps_nil (o : Oracle) (d : String) :
    bbDayFor o ["steps"] d = [] := by
  have h5 := (dailySummaryFor_steps_rest o d).2.2.2.2
  simp only [bbDayFor, h5, List.nil_append]
  rfl

theorem aggregate_steps_only (o : Oracle) (s : String) (dates : List String)
    (hnd : dates.Nodup) :
    aggregate o ["steps"] s dates =
      { steps := dates.flatMap (fun d => (dailySummaryFor o ["steps"] d).1),
        total_distance := [], highly_active_seconds := [], active_seconds := [],
        sedentary_seconds := [], sleep := [], stress := [], spo2 := [],
        lactate_threshold := [], race_predictions := [], body_battery := [],
        hydration := [] } := by
  have h := aggLoop_char o ["steps"] dates (initHealth o ["steps"] s) hnd
    (by simp [initHealth]) (by simp [initHealth])
  have hagg : aggregate o ["steps"] s dates =
      aggLoop o ["steps"] dates (initHealth o ["steps"] s) := rfl
  rw [hagg, h]
  simp only [initHealth, List.nil_append, HealthData.mk.injEq]
  refine ⟨trivial, ?_, ?_, ?_, ?_, ?_, ?_, ?_, rfl, rfl, ?_, ?_⟩
  · exact flatMap_nil_of dates _ (fun d _ => (dailySummaryFor_steps_rest o d).1)
  · exact flatMap_nil_of dates _ (fun d _ => (dailySummaryFor_steps_rest o d).2.1)
  · exact flatMap_nil_of dates _ (fun d _ => (dailySummaryFor_steps_rest o d).2.2.1)
  · exact flatMap_nil_of dates _
      (fun d _ => (dailySummaryFor_steps_rest o d).2.2.2.1)
  · exact flatMap_nil_of dates _ (fun d _ => rfl)
  · exact flatMap_nil_of dates _ (fun d _ => rfl)
  · exact flatMap_nil_of dates _ (fun d _ => rfl)
  · exact flatMap_nil_of dates _ (fun d _ => bbDayFor_steps_nil o d)
  · exact flatMap_nil_of dates _ (fun d _ => rfl)

/-- The cleaned form of one steps entry when its date string is not
parseable JSON: the `date` key survives, a `None` value is dropped, a
numeric value survives. -/
def stepClean (e : StepsEntry) : JVal :=
  .obj (("date", .str e.date) ::
    (match e.value with
     | some n => [("value", JVal.num (n : ℚ))]
     | none => []))

theorem clean_encSteps (e : StepsEntry)
    (hp : parseJson (replaceDDStr e.date) = none) :
    clean (encSteps e) = some (stepClean e) := by
  have hdate : clean (.str e.date) = some (.str e.date) := by
    rw [clean_strEq, hp]
  have hex : excludedKey "date" = false ∧ excludedKey "value" = false := by decide
  rcases e with ⟨d, v⟩
  rcases v with - | n
  · simp [encSteps, stepClean, clean_objEq, List.filterMap_cons, cleanEntry,
      isNull, zjOrNull, hex.1, hex.2, hdate]
  · simp [encSteps, stepClean, clean_objEq, List.filterMap_cons, cleanEntry,
      isNull, zjOrNull, hex.1, hex.2, hdate, clean_numEq]

/-- **C4 (amended).** Final-output shape: every category key present in the
final response maps to a non-empty array (empty category lists are dropped
by the `if v` comprehension); for a request of only `steps` over a date
list whose date strings are not parseable JSON, the output has at most the
single key `steps`, with at most one entry per date, and the key is present
exactly when some date produced a steps entry — with no data at all the
output is empty, not a one-key map. -/
theorem C4_final_shape (o : Oracle) (s : String) (dates : List String)
    (hnd : dates.Nodup)
    (hdates : ∀ d ∈ dates, parseJson (replaceDDStr d) = none) :
    (∀ (hd : HealthData), ∀ kv ∈ finalize hd,
        ∃ xs, kv.2 = JVal.arr xs ∧ xs ≠ []) ∧
    (∀ kv ∈ finalize (aggregate o ["steps"] s dates),
        kv.1 = "steps" ∧ ∃ xs, kv.2 = JVal.arr xs ∧ xs ≠ [] ∧
          xs.length ≤ dates.length) ∧
    (finalize (aggregate o ["steps"] s dates) = [] ↔
      (aggregate o ["steps"] s dates).steps = []) := by
  have hGen : ∀ (hd : HealthData), ∀ kv ∈ finalize hd,
      ∃ xs, kv.2 = JVal.arr xs ∧ xs ≠ [] := by
    intro hd kv hkv
    rw [finalize_eq] at hkv
    obtain ⟨hmem, htr⟩ := List.mem_filter.mp hkv
    simp only [cleanedEntries, List.mem_cons, List.not_mem_nil, or_false] at hmem
    rcases hmem with rfl | rfl | rfl | rfl | rfl | rfl | rfl | rfl | rfl | rfl |
      rfl | rfl <;>
      exact ⟨_, rfl, arr_truthy_ne_nil htr⟩
  refine ⟨hGen, ?_⟩
  have hagg := aggregate_steps_only o s dates hnd
  have hmemdate : ∀ e ∈ dates.flatMap (fun d => (dailySummaryFor o ["steps"] d).1),
      parseJson (replaceDDStr e.date) = none := by
    intro e he
    obtain ⟨d, hd, he'⟩ := List.mem_flatMap.mp he
    rw [dailySummary_steps_date o ["steps"] d e he']
    exact hdates d hd
  have hstep : ((dates.flatMap (fun d => (dailySummaryFor o ["steps"] d).1)).map
        encSteps).filterMap clean =
      (dates.flatMap (fun d => (dailySummaryFor o ["steps"] d).1)).map stepClean := by
    rw [List.filterMap_map]
    exact filterMap_all_some _ _ _ (fun e he => clean_encSteps e (hmemdate e he))
  have hlen : (dates.flatMap (fun d => (dailySummaryFor o ["steps"] d).1)).length ≤
      dates.length :=
    flatMap_length_le dates _ (fun d _ => dailySummary_steps_len o d)
  cases hS : dates.flatMap (fun d => (dailySummaryFor o ["steps"] d).1) with
  | nil =>
    have hfin : finalize (aggregate o ["steps"] s dates) = [] := by
      rw [finalize_eq, hagg]
      simp [cleanedEntries, hS, jTruthy]
    have hsteps : (aggregate o ["steps"] s dates).steps = [] := by
      rw [hagg]
      exact hS
    refine ⟨?_, ?_⟩
    · intro kv hkv
      rw [hfin] at hkv
      cases hkv
    · simp [hfin, hsteps]
  | cons e0 S' =>
    have hfin : finalize (aggregate o ["steps"] s dates) =
        [("steps", JVal.arr ((e0 :: S').map stepClean))] := by
      rw [finalize_eq, hagg]
      simp only [cleanedEntries]
      rw [hstep, hS]
      simp [jTruthy]
    have hsteps : (aggregate o ["steps"] s dates).steps = e0 :: S' := by
      rw [hagg]
      exact hS
    refine ⟨?_, ?_⟩
    · intro kv hkv
      rw [hfin, List.mem_singleton] at hkv
      subst hkv
      refine ⟨rfl, (e0 :: S').map stepClean, rfl, by simp, ?_⟩
      rw [List.length_map, ← hS]
      exact hlen
    · rw [hfin, hsteps]
      simp

/-- Witness for **C4**: the shape theorem applied to a concrete three-date,
steps-only request. -/
theorem C4_final_shape_witness :
    (["d1", "d2", "d3"] : List String).Nodup ∧
    (finalize (aggregate c1Oracle ["steps"] "d1" ["d1", "d2", "d3"]) = [] ↔
      (aggregate c1Oracle ["steps"] "d1" ["d1", "d2", "d3"]).steps = []) :=
  ⟨by decide,
   (C4_final_shape c1Oracle "d1" ["d1", "d2", "d3"] (by decide)
     (by intro d hd; fin_cases hd <;> rfl)).2.2⟩

/-- An upstream client whose every call throws. -/
def c4OracleFail : Oracle :=
  ⟨fun _ => .error (), fun _ => .error (), fun _ => .error (),
   fun _ => .error (), fun _ => .error (), fun _ => .error (),
   .error (), .error ()⟩

/-- Counterexample to **C4** as stated: with 3 consecutive dates and only
`steps` requested but no data available, the output contains no key at all
— not "exactly one category key (`steps`)". -/
theorem C4_empty_output_counterexample :
    finalize (aggregate c4OracleFail ["steps"] "d1" ["d1", "d2", "d3"]) = [] ∧
    (aggregate c4OracleFail ["steps"] "d1" ["d1", "d2", "d3"]).steps = [] :=
  ⟨rfl, rfl⟩

end SparkyGarmin
